import Mathlib

/-!
Shallow embedding of the TrafficSim python backend simulation core
(src/python_backend/core/vehicle.py, lane.py, driver.py, model.py).

Modelling conventions:
* Python floats are modelled as rationals.
* Python dicts (which preserve insertion order) are association lists
  keyed by entity id; dict values referencing live objects are replaced
  by integer ids resolved through the owning registry, so vehicle.lane
  becomes a lane id and lane.vehicles a list of vehicle ids.
* The surrounding dict of a vehicle is keyed by a PyKey type that also
  contains string keys and the Python None key, because
  IDMDriver._calculate_acceleration indexes that dict with the string
  "FRONT" and with None, and the distinction between the Enclosure key
  Enclosure.FRONT and the string key "FRONT" is observable behaviour.
* Wall-clock reads (time.time), the per-vehicle accelerations debug dict,
  observers, traffic generators (whose update method is a pass statement),
  road-side units, lane geometry coordinates and threading are not
  modelled; none of them feed back into the simulation state.
* Python list.sort is a stable sort; it is modelled by a stable insertion
  sort on the same key, which produces the same list.
-/

attribute [local semireducible] Rat.mul Rat.add Rat.sub Rat.inv Rat.ofScientific

namespace TrafficSim

/-- assocGet d k looks up key k in a python dict modelled as an
association list, returning the stored value or none. -/
def assocGet {α : Type} : List (Nat × α) → Nat → Option α
  | [], _ => none
  | (k, v) :: rest, key => if k = key then some v else assocGet rest key

/-- assocSet d k v models `d[k] = v` on a python dict: it overwrites the
value in place if the key is present and appends the pair otherwise. -/
def assocSet {α : Type} : List (Nat × α) → Nat → α → List (Nat × α)
  | [], key, v => [(key, v)]
  | (k, w) :: rest, key, v =>
    if k = key then (k, v) :: rest else (k, w) :: assocSet rest key v

/-- assocErase d k models `del d[k]` on a python dict. -/
def assocErase {α : Type} : List (Nat × α) → Nat → List (Nat × α)
  | [], _ => []
  | (k, w) :: rest, key => if k = key then rest else (k, w) :: assocErase rest key

/-- LatDirection from vehicle.py: lateral direction of a lane change. -/
inductive LatDirection where
  | LEFT
  | RIGHT
deriving DecidableEq, Repr

/-- Enclosure from vehicle.py: the six neighbor slots around a vehicle. -/
inductive Enclosure where
  | FRONT
  | BACK
  | LEFT_FRONT
  | LEFT_BACK
  | RIGHT_FRONT
  | RIGHT_BACK
deriving DecidableEq, Repr

/-- PyKey is the type of python values used as keys of the
vehicle.surrounding dict: the Enclosure members the dict is built with,
plus the string and None values that IDMDriver._calculate_acceleration
passes when indexing it. -/
inductive PyKey where
  | enc : Enclosure → PyKey
  | str : String → PyKey
  | vehref : Nat → PyKey
  | pynone
deriving DecidableEq, Repr

/-- sdictGet d k models dict.get(k) on the surrounding dict, whose python
values are Optional vehicles: a missing key yields python None, i.e. none. -/
def sdictGet (d : List (PyKey × Option Nat)) (k : PyKey) : Option Nat :=
  match d with
  | [] => none
  | (k1, v) :: rest => if k1 = k then v else sdictGet rest k

/-- sdictHasKey d k models `k in d` on the surrounding dict. -/
def sdictHasKey (d : List (PyKey × Option Nat)) (k : PyKey) : Bool :=
  d.any (fun kv => kv.1 = k)

/-- sdictSet d k v models `d[k] = v` on the surrounding dict. -/
def sdictSet (d : List (PyKey × Option Nat)) (k : PyKey) (v : Option Nat) :
    List (PyKey × Option Nat) :=
  match d with
  | [] => [(k, v)]
  | (k1, w) :: rest => if k1 = k then (k1, v) :: rest else (k1, w) :: sdictSet rest k v

/-- VehicleState from vehicle.py, with floats as rationals. -/
structure VehicleState where
  x : ℚ := 0
  y : ℚ := 0
  velocity : ℚ := 0
  acceleration : ℚ := 0
  lane_change_progress : ℚ := 0
  crashed : Bool := false
deriving DecidableEq, Repr

/-- Vehicle from vehicle.py. The lane back-reference is stored as a lane
id, the driver back-pointer as a driver id, and the surrounding dict maps
PyKey keys to optional vehicle ids. Observers and the accelerations debug
dict are omitted (they never influence simulation state). -/
structure Vehicle where
  id : Nat
  laneId : Nat
  state : VehicleState
  length : ℚ := 4.5
  width : ℚ := 2.0
  v_max : ℚ := 50.0
  lc_direction : Option LatDirection := none
  dy : ℚ := 0
  surrounding : List (PyKey × Option Nat)
  driverId : Option Nat := none
deriving DecidableEq, Repr

/-- initialSurrounding is the dict comprehension in Vehicle.__init__:
every Enclosure key mapped to python None. -/
def initialSurrounding : List (PyKey × Option Nat) :=
  [(PyKey.enc Enclosure.FRONT, none), (PyKey.enc Enclosure.BACK, none),
   (PyKey.enc Enclosure.LEFT_FRONT, none), (PyKey.enc Enclosure.LEFT_BACK, none),
   (PyKey.enc Enclosure.RIGHT_FRONT, none), (PyKey.enc Enclosure.RIGHT_BACK, none)]

/-- mkVehicle is Vehicle.__init__(vehicle_id, lane, initial_x). -/
def mkVehicle (vehicle_id : Nat) (laneId : Nat) (initial_x : ℚ) : Vehicle :=
  { id := vehicle_id
    laneId := laneId
    state := { x := initial_x }
    surrounding := initialSurrounding }

/-- Lane from lane.py. Neighbor links are lane ids; the vehicle list is a
list of vehicle ids in python list order. Lane type, centerline
coordinates, generators, rsus, observers and the taper link are omitted:
no embedded operation reads them. -/
structure Lane where
  id : Nat
  length : ℚ := 1000.0
  upstream : Option Nat := none
  downstream : Option Nat := none
  left : Option Nat := none
  right : Option Nat := none
  vehicles : List Nat := []
  speed_limit : ℚ := 33.33
  width : ℚ := 3.5
deriving DecidableEq, Repr

/-- Route from driver.py: an immutable lane id sequence and the mutable
cursor current_index. -/
structure Route where
  id : Nat
  lane_sequence : List Nat
  current_index : Nat := 0
deriving DecidableEq, Repr

/-- get_current_target_lane from driver.py Route. -/
def Route.get_current_target_lane (r : Route) : Option Nat :=
  if r.current_index < r.lane_sequence.length then
    r.lane_sequence[r.current_index]?
  else none

/-- advance_route from driver.py Route: the cursor only advances while it
is strictly below length minus one. -/
def Route.advance_route (r : Route) : Route :=
  if r.current_index < r.lane_sequence.length - 1 then
    { r with current_index := r.current_index + 1 }
  else r

/-- is_route_complete from driver.py Route. -/
def Route.is_route_complete (r : Route) : Bool :=
  r.lane_sequence.length ≤ r.current_index

/-- DriverType from driver.py. -/
inductive DriverType where
  | AGGRESSIVE
  | NORMAL
  | CAUTIOUS
  | IDM
deriving DecidableEq, Repr

/-- IDMDriver from driver.py: identity, controlled vehicle (as an id),
route and the IDM plus lane-changing parameter set, with the defaults of
IDMDriver.__init__. -/
structure IDMDriver where
  id : Nat
  dtype : DriverType := DriverType.IDM
  vehicleId : Option Nat := none
  route : Option Route := none
  desired_speed : ℚ := 33.33
  time_headway : ℚ := 1.5
  min_spacing : ℚ := 2.0
  max_acceleration : ℚ := 2.0
  comfortable_deceleration : ℚ := 3.0
  acceleration_exponent : Nat := 4
  politeness : ℚ := 0.5
  lane_change_threshold : ℚ := 0.2
  min_lane_change_gap : ℚ := 10.0
deriving DecidableEq, Repr

/-- mkIDMDriver is IDMDriver.__init__ including the per-type parameter
adjustment done by adjust_parameters_for_type. -/
def mkIDMDriver (driver_id : Nat) (dtype : DriverType) : IDMDriver :=
  let base : IDMDriver := { id := driver_id, dtype := dtype }
  match dtype with
  | DriverType.AGGRESSIVE =>
    { base with time_headway := 1.0, min_spacing := 1.5, max_acceleration := 2.5,
                comfortable_deceleration := 4.0, politeness := 0.2,
                desired_speed := base.desired_speed * 1.1 }
  | DriverType.CAUTIOUS =>
    { base with time_headway := 2.5, min_spacing := 3.0, max_acceleration := 1.5,
                comfortable_deceleration := 2.0, politeness := 0.8,
                desired_speed := base.desired_speed * 0.9 }
  | _ => base

/-- SimpleDriver from driver.py with the defaults of SimpleDriver.__init__. -/
structure SimpleDriver where
  id : Nat
  dtype : DriverType := DriverType.NORMAL
  vehicleId : Option Nat := none
  route : Option Route := none
  desired_speed : ℚ := 30.0
  reaction_time : ℚ := 1.0
  max_acceleration : ℚ := 2.0
  max_deceleration : ℚ := 3.0
deriving DecidableEq, Repr

/-- Driver is the polymorphic driver: the two concrete classes of
driver.py as a sum type. -/
inductive Driver where
  | idm : IDMDriver → Driver
  | simple : SimpleDriver → Driver
deriving DecidableEq, Repr

/-- get_id of the two driver classes. -/
def Driver.get_id : Driver → Nat
  | Driver.idm d => d.id
  | Driver.simple d => d.id

/-- vehicleId of either driver class. -/
def Driver.vehicleId : Driver → Option Nat
  | Driver.idm d => d.vehicleId
  | Driver.simple d => d.vehicleId

/-- set_vehicle on the driver record part only (the back-pointer write
vehicle.driver = self is done by the callers of Driver.set_vehicle in the
model embedding). -/
def Driver.set_vehicle : Driver → Nat → Driver
  | Driver.idm d, vid => Driver.idm { d with vehicleId := some vid }
  | Driver.simple d, vid => Driver.simple { d with vehicleId := some vid }

/-- set_route of the two driver classes. -/
def Driver.set_route : Driver → Route → Driver
  | Driver.idm d, r => Driver.idm { d with route := some r }
  | Driver.simple d, r => Driver.simple { d with route := some r }

/-- create_driver from driver.py: the factory builds an IDMDriver exactly
for DriverType.IDM and a SimpleDriver for every other type. -/
def create_driver (driver_id : Nat) (dtype : DriverType) : Driver :=
  if dtype = DriverType.IDM then Driver.idm (mkIDMDriver driver_id dtype)
  else Driver.simple { id := driver_id, dtype := dtype }

/-- SimulationState from model.py. -/
inductive SimulationState where
  | STOPPED
  | RUNNING
  | PAUSED
  | STEP
deriving DecidableEq, Repr

/-- SimulationSettings from model.py. -/
structure SimulationSettings where
  time_step : ℚ := 0.1
  max_simulation_time : ℚ := 3600.0
  debug_mode : Bool := false
  real_time_factor : ℚ := 1.0
deriving DecidableEq, Repr

/-- SimulationStats from model.py; counters are python ints. -/
structure SimulationStats where
  current_time : ℚ := 0.0
  total_vehicles : Int := 0
  active_vehicles : Int := 0
  completed_vehicles : Int := 0
  crashed_vehicles : Int := 0
  average_speed : ℚ := 0.0
  total_flow : ℚ := 0.0
  average_density : ℚ := 0.0
deriving DecidableEq, Repr

/-- Model is TrafficSimulationModel from model.py: run state, settings,
statistics, the four id-keyed registries, the simulation clock, the stop
flag and the id counters. The wall-clock fields start_time and
last_update_time, the generators list, the observers list and the thread
handle are not modelled. -/
structure Model where
  state : SimulationState := SimulationState.STOPPED
  settings : SimulationSettings := {}
  stats : SimulationStats := {}
  lanes : List (Nat × Lane) := []
  vehicles : List (Nat × Vehicle) := []
  drivers : List (Nat × Driver) := []
  routes : List (Nat × Route) := []
  current_time : ℚ := 0.0
  stop_simulation_flag : Bool := false
  next_vehicle_id : Nat := 1
  next_driver_id : Nat := 1
deriving DecidableEq, Repr

/-- setVehicle writes one vehicle record back into the vehicles registry. -/
def setVehicle (m : Model) (vid : Nat) (v : Vehicle) : Model :=
  { m with vehicles := assocSet m.vehicles vid v }

/-- setLane writes one lane record back into the lanes registry. -/
def setLane (m : Model) (lid : Nat) (l : Lane) : Model :=
  { m with lanes := assocSet m.lanes lid l }

/-- xOf m vid is vehicle.get_x() read through the registry (0 for a
dangling id, which no reachable state produces). -/
def xOf (m : Model) (vid : Nat) : ℚ :=
  ((assocGet m.vehicles vid).map (fun v => v.state.x)).getD 0

/-- velOf m vid is vehicle.get_velocity() read through the registry. -/
def velOf (m : Model) (vid : Nat) : ℚ :=
  ((assocGet m.vehicles vid).map (fun v => v.state.velocity)).getD 0

/-- lengthOf m vid is vehicle.length read through the registry. -/
def lengthOf (m : Model) (vid : Nat) : ℚ :=
  ((assocGet m.vehicles vid).map (fun v => v.length)).getD 0

/-- insertByX inserts a vehicle id into a list sorted by position,
keeping equal keys in their original order. -/
def insertByX (m : Model) (vid : Nat) : List Nat → List Nat
  | [] => [vid]
  | w :: ws => if xOf m vid ≤ xOf m w then vid :: w :: ws else w :: insertByX m vid ws

/-- sortByX is the stable sort self.vehicles.sort(key=lambda v: v.get_x())
of Lane.add_vehicle, as a stable insertion sort on the same key. -/
def sortByX (m : Model) : List Nat → List Nat
  | [] => []
  | v :: vs => insertByX m v (sortByX m vs)

/-- add_vehicle from lane.py: append the vehicle if absent, re-sort the
list by position, and set the vehicle.lane back-reference. -/
def Lane.add_vehicle (m : Model) (lid : Nat) (vid : Nat) : Model :=
  match assocGet m.lanes lid with
  | none => m
  | some lane =>
    if vid ∈ lane.vehicles then m
    else
      let m1 := setLane m lid { lane with vehicles := sortByX m (lane.vehicles ++ [vid]) }
      match assocGet m1.vehicles vid with
      | none => m1
      | some veh => setVehicle m1 vid { veh with laneId := lid }

/-- remove_vehicle from lane.py: drop the vehicle from the list if present. -/
def Lane.remove_vehicle (m : Model) (lid : Nat) (vid : Nat) : Model :=
  match assocGet m.lanes lid with
  | none => m
  | some lane =>
    if vid ∈ lane.vehicles then
      setLane m lid { lane with vehicles := lane.vehicles.erase vid }
    else m

/-- pyMinBy models python min(candidates, key=...): the first element
whose key is minimal, or none on an empty list. -/
def pyMinBy (key : Nat → ℚ) : List Nat → Option Nat
  | [] => none
  | v :: vs => some (vs.foldl (fun best w => if key w < key best then w else best) v)

/-- pyMaxBy models python max(candidates, key=...): the first element
whose key is maximal, or none on an empty list. -/
def pyMaxBy (key : Nat → ℚ) : List Nat → Option Nat
  | [] => none
  | v :: vs => some (vs.foldl (fun best w => if key best < key w then w else best) v)

/-- get_leading_vehicle from lane.py: the candidate with minimal position
among vehicles strictly ahead of the given position. -/
def Lane.get_leading_vehicle (m : Model) (lane : Lane) (position : ℚ) : Option Nat :=
  pyMinBy (xOf m) (lane.vehicles.filter (fun v => position < xOf m v))

/-- get_following_vehicle from lane.py: the candidate with maximal
position among vehicles strictly behind the given position. -/
def Lane.get_following_vehicle (m : Model) (lane : Lane) (position : ℚ) : Option Nat :=
  pyMaxBy (xOf m) (lane.vehicles.filter (fun v => xOf m v < position))

/-- Neighbors is the dict built by Lane.get_neighbors, flattened to its
six possible entries; the lateral entries are none when the adjacent lane
is absent, matching neighbors.get returning python None for missing keys. -/
structure Neighbors where
  leader : Option Nat
  follower : Option Nat
  left_leader : Option Nat
  left_follower : Option Nat
  right_leader : Option Nat
  right_follower : Option Nat
deriving DecidableEq, Repr

/-- get_neighbors from lane.py, for a vehicle at the given position. -/
def Lane.get_neighbors (m : Model) (lane : Lane) (position : ℚ) : Neighbors :=
  let leftPair :=
    match lane.left with
    | some lid =>
      match assocGet m.lanes lid with
      | some ll => (Lane.get_leading_vehicle m ll position,
                    Lane.get_following_vehicle m ll position)
      | none => (none, none)
    | none => (none, none)
  let rightPair :=
    match lane.right with
    | some lid =>
      match assocGet m.lanes lid with
      | some rl => (Lane.get_leading_vehicle m rl position,
                    Lane.get_following_vehicle m rl position)
      | none => (none, none)
    | none => (none, none)
  { leader := Lane.get_leading_vehicle m lane position
    follower := Lane.get_following_vehicle m lane position
    left_leader := leftPair.1
    left_follower := leftPair.2
    right_leader := rightPair.1
    right_follower := rightPair.2 }

/-- writeSurroundings performs the six update_surrounding calls of
Lane.update_vehicle_surroundings on one vehicle record. -/
def writeSurroundings (veh : Vehicle) (n : Neighbors) : Vehicle :=
  let s0 := sdictSet veh.surrounding (PyKey.enc Enclosure.FRONT) n.leader
  let s1 := sdictSet s0 (PyKey.enc Enclosure.BACK) n.follower
  let s2 := sdictSet s1 (PyKey.enc Enclosure.LEFT_FRONT) n.left_leader
  let s3 := sdictSet s2 (PyKey.enc Enclosure.LEFT_BACK) n.left_follower
  let s4 := sdictSet s3 (PyKey.enc Enclosure.RIGHT_FRONT) n.right_leader
  let s5 := sdictSet s4 (PyKey.enc Enclosure.RIGHT_BACK) n.right_follower
  { veh with surrounding := s5 }

/-- update_vehicle_surroundings from lane.py: for every vehicle on the
lane, recompute its neighbors and write the six enclosure slots. -/
def Lane.update_vehicle_surroundings (m : Model) (lid : Nat) : Model :=
  match assocGet m.lanes lid with
  | none => m
  | some lane =>
    lane.vehicles.foldl
      (fun m1 vid =>
        match assocGet m1.vehicles vid with
        | none => m1
        | some veh =>
          let lane1 := ((assocGet m1.lanes lid).getD lane)
          let n := Lane.get_neighbors m1 lane1 veh.state.x
          setVehicle m1 vid (writeSurroundings veh n))
      m

/-- is_safe_lane_change from lane.py, with the min_gap parameter explicit
(every caller uses the default 10.0). -/
def Lane.is_safe_lane_change (m : Model) (veh : Vehicle) (target : Lane) (min_gap : ℚ) : Bool :=
  let position := veh.state.x
  let leaderOk :=
    match Lane.get_leading_vehicle m target position with
    | some leader => decide (min_gap ≤ xOf m leader - position - veh.length)
    | none => true
  let followerOk :=
    match Lane.get_following_vehicle m target position with
    | some follower => decide (min_gap ≤ position - xOf m follower - lengthOf m follower)
    | none => true
  leaderOk && followerOk

/-- start_lane_change from vehicle.py, duration made explicit (every
caller uses the default 3.0). -/
def Vehicle.start_lane_change (m : Model) (vid : Nat) (direction : LatDirection)
    (duration : ℚ) : Model :=
  match assocGet m.vehicles vid with
  | none => m
  | some veh =>
    if 0 < veh.state.lane_change_progress then m
    else setVehicle m vid { veh with lc_direction := some direction, dy := 1 / duration }

/-- endLCSwitch is the target-lane branch of end_lane_change: detach from
the current lane, reassign the vehicle.lane reference, attach to the
target lane. -/
def endLCSwitch (m : Model) (oldLid tid vid : Nat) : Model :=
  let m2 := Lane.remove_vehicle m oldLid vid
  let m3 :=
    match assocGet m2.vehicles vid with
    | some veh2 => setVehicle m2 vid { veh2 with laneId := tid }
    | none => m2
  Lane.add_vehicle m3 tid vid

/-- endLCReset is the unconditional tail of end_lane_change: reset
progress, clear the direction and zero the lateral speed. -/
def endLCReset (m1 : Model) (vid : Nat) : Model :=
  match assocGet m1.vehicles vid with
  | none => m1
  | some veh3 =>
    setVehicle m1 vid
      { veh3 with
        state := { veh3.state with lane_change_progress := 0 }
        lc_direction := none
        dy := 0 }

/-- end_lane_change from vehicle.py: if a change is in progress, look up
the target as the left or right neighbor of the lane the vehicle is on at
this moment; if it exists, detach from the current lane, reassign the
lane reference and attach to the target lane; in every case reset
progress, direction and lateral speed. -/
def Vehicle.end_lane_change (m : Model) (vid : Nat) : Model :=
  match assocGet m.vehicles vid with
  | none => m
  | some veh =>
    if 0 < veh.state.lane_change_progress then
      let target : Option Nat :=
        match veh.lc_direction with
        | some LatDirection.LEFT => ((assocGet m.lanes veh.laneId).bind (fun l => l.left))
        | some LatDirection.RIGHT => ((assocGet m.lanes veh.laneId).bind (fun l => l.right))
        | none => none
      endLCReset
        (match target with
         | some tid => endLCSwitch m veh.laneId tid vid
         | none => m) vid
    else m

/-- moveLateral is the lane-changing step of move: advance the progress,
and complete the change when the progress reaches 1. -/
def moveLateral (m : Model) (vid : Nat) (veh : Vehicle) (dt : ℚ) : Model :=
  let p := veh.state.lane_change_progress + veh.dy * dt
  let m0 := setVehicle m vid
    { veh with state := { veh.state with lane_change_progress := p } }
  if 1 ≤ p then Vehicle.end_lane_change m0 vid else m0

/-- moveIntegrate is the longitudinal step of move: clamped displacement
from the pre-update velocity, clamped velocity update, position update,
and lateral drift while a change is still in progress. -/
def moveIntegrate (m1 : Model) (vid : Nat) (dt : ℚ) : Model :=
  match assocGet m1.vehicles vid with
  | none => m1
  | some veh2 =>
    let dx := max 0 (dt * veh2.state.velocity + 1/2 * veh2.state.acceleration * dt * dt)
    let velocity := max 0 (veh2.state.velocity + dt * veh2.state.acceleration)
    let y := veh2.state.y + (if 0 < veh2.state.lane_change_progress then veh2.dy * dt else 0)
    setVehicle m1 vid
      { veh2 with state := { veh2.state with
          x := veh2.state.x + dx, velocity := velocity, y := y } }

/-- move from vehicle.py: no-op when crashed; otherwise advance the lane
change progress and possibly complete the change, then integrate. -/
def Vehicle.move (m : Model) (vid : Nat) (dt : ℚ) : Model :=
  match assocGet m.vehicles vid with
  | none => m
  | some veh =>
    if veh.state.crashed then m
    else
      moveIntegrate (if veh.dy ≠ 0 then moveLateral m vid veh dt else m) vid dt

/-- crash from vehicle.py: set the crashed flag and zero velocity and
acceleration. -/
def Vehicle.crash (m : Model) (vid : Nat) : Model :=
  match assocGet m.vehicles vid with
  | none => m
  | some veh =>
    setVehicle m vid
      { veh with state :=
        { veh.state with crashed := true, velocity := 0, acceleration := 0 } }

/-- front_leader is the leader lookup expression of
IDMDriver._calculate_acceleration, verbatim:

  self.vehicle.get_vehicle(self.vehicle.surrounding["FRONT"]
                           if "FRONT" in self.vehicle.surrounding else None)

The surrounding dict is keyed by Enclosure members, so the membership
test on the string key decides which python value is then passed to
get_vehicle as a dict key: the stored value (a vehicle or None) when the
string key is present, and None otherwise. -/
def IDMDriver.front_leader (veh : Vehicle) : Option Nat :=
  if sdictHasKey veh.surrounding (PyKey.str "FRONT") then
    match sdictGet veh.surrounding (PyKey.str "FRONT") with
    | some w => sdictGet veh.surrounding (PyKey.vehref w)
    | none => sdictGet veh.surrounding PyKey.pynone
  else
    sdictGet veh.surrounding PyKey.pynone

/-- calculate_acceleration is IDMDriver._calculate_acceleration. The
function msqrt stands for python math.sqrt, which has no rational
counterpart; it is applied exactly where the source applies math.sqrt.
The branch on gap not being positive returns the comfortable
deceleration floor directly: in the source the interaction term is then
float("inf"), the acceleration is max_acceleration times minus infinity,
and the final max with the negated comfortable deceleration yields that
floor (max_acceleration is positive in every constructed parameter set). -/
def IDMDriver.calculate_acceleration (msqrt : ℚ → ℚ) (m : Model) (d : IDMDriver) : ℚ :=
  match d.vehicleId.bind (assocGet m.vehicles) with
  | none => 0.0
  | some veh =>
    let v := veh.state.velocity
    let leader := IDMDriver.front_leader veh
    let free_acceleration := d.max_acceleration *
      (1 - (v / d.desired_speed) ^ d.acceleration_exponent)
    match leader.bind (assocGet m.vehicles) with
    | none => free_acceleration
    | some L =>
      let gap := max 0 (L.state.x - veh.state.x - L.length)
      let velocity_diff := v - L.state.velocity
      let desired_gap := d.min_spacing + d.time_headway * v +
        (v * velocity_diff) /
          (2 * msqrt (d.max_acceleration * d.comfortable_deceleration))
      if 0 < gap then
        max (d.max_acceleration *
              (1 - (v / d.desired_speed) ^ d.acceleration_exponent -
               (desired_gap / gap) ^ 2))
            (-d.comfortable_deceleration)
      else
        -d.comfortable_deceleration

/-- should_change_lane is IDMDriver._should_change_lane: MOBIL advantage
test of the target lane against the current acceleration. -/
def IDMDriver.should_change_lane (msqrt : ℚ → ℚ) (m : Model) (d : IDMDriver)
    (target : Lane) : Bool :=
  match d.vehicleId.bind (assocGet m.vehicles) with
  | none => false
  | some veh =>
    let current_accel := IDMDriver.calculate_acceleration msqrt m d
    match Lane.get_leading_vehicle m target veh.state.x with
    | none => decide (d.lane_change_threshold < d.max_acceleration - current_accel)
    | some tl =>
      let gap := xOf m tl - veh.state.x - veh.length
      if gap ≤ 0 then false
      else
        let v := veh.state.velocity
        let velocity_diff := v - velOf m tl
        let desired_gap := d.min_spacing + d.time_headway * v +
          (v * velocity_diff) /
            (2 * msqrt (d.max_acceleration * d.comfortable_deceleration))
        let interaction_term := (desired_gap / gap) ^ 2
        let target_accel := d.max_acceleration *
          (1 - (v / d.desired_speed) ^ d.acceleration_exponent - interaction_term)
        decide (d.lane_change_threshold < target_accel - current_accel)

/-- consider_lane_change is IDMDriver._consider_lane_change: left lane
first, then right; each candidate must pass the advantage test and the
safety check before start_lane_change is called. -/
def IDMDriver.consider_lane_change (msqrt : ℚ → ℚ) (m : Model) (d : IDMDriver) : Model :=
  match d.vehicleId.bind (assocGet m.vehicles) with
  | none => m
  | some veh =>
    if 0 < veh.state.lane_change_progress then m
    else
      match assocGet m.lanes veh.laneId with
      | none => m
      | some lane =>
        let tryLeft : Bool :=
          match lane.left.bind (assocGet m.lanes) with
          | some leftLane =>
            IDMDriver.should_change_lane msqrt m d leftLane &&
            Lane.is_safe_lane_change m veh leftLane 10.0
          | none => false
        if tryLeft then Vehicle.start_lane_change m veh.id LatDirection.LEFT 3.0
        else
          let tryRight : Bool :=
            match lane.right.bind (assocGet m.lanes) with
            | some rightLane =>
              IDMDriver.should_change_lane msqrt m d rightLane &&
              Lane.is_safe_lane_change m veh rightLane 10.0
            | none => false
          if tryRight then Vehicle.start_lane_change m veh.id LatDirection.RIGHT 3.0
          else m

/-- drive of IDMDriver: no-op if the vehicle is absent or crashed, else
apply the computed acceleration and evaluate the lane change decision. -/
def IDMDriver.drive (msqrt : ℚ → ℚ) (m : Model) (d : IDMDriver) : Model :=
  match d.vehicleId.bind (assocGet m.vehicles) with
  | none => m
  | some veh =>
    if veh.state.crashed then m
    else
      let acceleration := IDMDriver.calculate_acceleration msqrt m d
      let m1 := setVehicle m veh.id
        { veh with state := { veh.state with acceleration := acceleration } }
      IDMDriver.consider_lane_change msqrt m1 d

/-- drive of SimpleDriver: proportional response to the speed difference,
clamped at the maximum acceleration and deceleration. -/
def SimpleDriver.drive (m : Model) (d : SimpleDriver) : Model :=
  match d.vehicleId.bind (assocGet m.vehicles) with
  | none => m
  | some veh =>
    if veh.state.crashed then m
    else
      let speed_diff := d.desired_speed - veh.state.velocity
      let acceleration :=
        if 0 < speed_diff then min d.max_acceleration speed_diff
        else max (-d.max_deceleration) speed_diff
      setVehicle m veh.id
        { veh with state := { veh.state with acceleration := acceleration } }

/-- drive dispatched over the two driver classes. -/
def Driver.drive (msqrt : ℚ → ℚ) (m : Model) : Driver → Model
  | Driver.idm d => IDMDriver.drive msqrt m d
  | Driver.simple d => SimpleDriver.drive m d

/-- set_left_lane from lane.py: bidirectional link update. -/
def Lane.set_left_lane (m : Model) (lid : Nat) (other : Nat) : Model :=
  match assocGet m.lanes lid with
  | none => m
  | some lane =>
    let m1 := setLane m lid { lane with left := some other }
    match assocGet m1.lanes other with
    | none => m1
    | some o => setLane m1 other { o with right := some lid }

/-- add_vehicle from model.py: none and no mutation when the lane id is
unknown; otherwise build the vehicle, build the driver, wire the two
together, optionally attach the route, insert into the registries and the
lane, bump the id counters and the statistics, and return the vehicle id. -/
def Model.add_vehicle (m : Model) (lane_id : Nat) (driver_type : DriverType)
    (initial_position : ℚ) (route : Option Route) : Option Nat × Model :=
  match assocGet m.lanes lane_id with
  | none => (none, m)
  | some _ =>
    let vehicle := mkVehicle m.next_vehicle_id lane_id initial_position
    let driver0 := create_driver m.next_driver_id driver_type
    let driver1 := driver0.set_vehicle vehicle.id
    let vehicle1 := { vehicle with driverId := some driver1.get_id }
    let driver2 :=
      match route with
      | some r => driver1.set_route r
      | none => driver1
    let m1 := { m with vehicles := assocSet m.vehicles vehicle1.id vehicle1 }
    let m2 := { m1 with drivers := assocSet m1.drivers driver2.get_id driver2 }
    let m3 := Lane.add_vehicle m2 lane_id vehicle1.id
    (some vehicle1.id,
     { m3 with
        next_vehicle_id := m3.next_vehicle_id + 1
        next_driver_id := m3.next_driver_id + 1
        stats := { m3.stats with
          total_vehicles := m3.stats.total_vehicles + 1
          active_vehicles := m3.stats.active_vehicles + 1 } })

/-- remove_vehicle from model.py: detach from the lane, delete the
driver, delete the vehicle, and update the statistics counters. -/
def Model.remove_vehicle (m : Model) (vehicle_id : Nat) : Model :=
  match assocGet m.vehicles vehicle_id with
  | none => m
  | some veh =>
    let m1 := Lane.remove_vehicle m veh.laneId vehicle_id
    let m2 :=
      match veh.driverId with
      | some did =>
        if (assocGet m1.drivers did).isSome then
          { m1 with drivers := assocErase m1.drivers did }
        else m1
      | none => m1
    let m3 := { m2 with vehicles := assocErase m2.vehicles vehicle_id }
    { m3 with stats :=
      { m3.stats with
        active_vehicles := m3.stats.active_vehicles - 1
        crashed_vehicles :=
          m3.stats.crashed_vehicles + (if veh.state.crashed then 1 else 0)
        completed_vehicles :=
          m3.stats.completed_vehicles + (if veh.state.crashed then 0 else 1) } }

/-- has_vehicle_exited from model.py: position strictly beyond the lane
length and no downstream lane. -/
def Model.has_vehicle_exited (m : Model) (veh : Vehicle) : Bool :=
  match assocGet m.lanes veh.laneId with
  | none => false
  | some lane => decide (lane.length < veh.state.x) && lane.downstream.isNone

/-- get_density from lane.py. -/
def Lane.get_density (lane : Lane) : ℚ :=
  if lane.length ≤ 0 then 0.0
  else ((lane.vehicles.length : ℚ) / lane.length) * 1000.0

/-- get_flow from lane.py: density times mean speed times 3.6. -/
def Lane.get_flow (m : Model) (lane : Lane) : ℚ :=
  if lane.vehicles = [] then 0.0
  else
    let avg_speed := (lane.vehicles.map (velOf m)).sum / (lane.vehicles.length : ℚ)
    Lane.get_density lane * avg_speed * 3.6

/-- update_statistics from model.py. -/
def Model.update_statistics (m : Model) : Model :=
  let average_speed :=
    if m.vehicles = [] then 0.0
    else (m.vehicles.map (fun kv => kv.2.state.velocity)).sum / (m.vehicles.length : ℚ)
  let total_flow := (m.lanes.map (fun kv => Lane.get_flow m kv.2)).sum
  let total_density := (m.lanes.map (fun kv => Lane.get_density kv.2)).sum
  let lane_count := m.lanes.length
  { m with stats :=
    { m.stats with
      active_vehicles := (m.vehicles.length : Int)
      average_speed := average_speed
      total_flow := total_flow
      average_density :=
        if 0 < lane_count then total_density / (lane_count : ℚ) else 0.0 } }

/-- phaseSurroundings is the first loop of update_simulation: refresh the
neighbor caches lane by lane, in registry order. -/
def phaseSurroundings (m : Model) : Model :=
  (m.lanes.map Prod.fst).foldl (fun m1 lid => Lane.update_vehicle_surroundings m1 lid) m

/-- phaseDrive is the second loop of update_simulation: every registered
driver drives, in registry order. The try/except around each driver has
no counterpart: the embedded drive functions are total. -/
def phaseDrive (msqrt : ℚ → ℚ) (m : Model) : Model :=
  (m.drivers.map Prod.fst).foldl
    (fun m1 did =>
      match assocGet m1.drivers did with
      | some d => Driver.drive msqrt m1 d
      | none => m1)
    m

/-- moveAndCheck is the body of the third loop of update_simulation: move
one vehicle, then remove it from the model if it has exited. -/
def moveAndCheck (m : Model) (dt : ℚ) (vid : Nat) : Model :=
  let m1 := Vehicle.move m vid dt
  match assocGet m1.vehicles vid with
  | none => m1
  | some veh =>
    if Model.has_vehicle_exited m1 veh then Model.remove_vehicle m1 vid else m1

/-- phaseMove is the third loop of update_simulation, iterating over a
snapshot list(self.vehicles.values()) taken before the loop. -/
def phaseMove (m : Model) (dt : ℚ) : Model :=
  (m.vehicles.map Prod.fst).foldl (fun m1 vid => moveAndCheck m1 dt vid) m

/-- update_simulation from model.py: advance the clock, refresh neighbor
caches, drive, move plus exit-check, then recompute statistics. The
traffic generator loop runs update methods whose body is a pass
statement, and the observer loop is external; both are omitted. -/
def Model.update_simulation (msqrt : ℚ → ℚ) (m : Model) (dt : ℚ) : Model :=
  let m0 := { m with current_time := m.current_time + dt }
  let m1 := { m0 with stats := { m0.stats with current_time := m0.current_time } }
  Model.update_statistics (phaseMove (phaseDrive msqrt (phaseSurroundings m1)) dt)

/-- start_simulation from model.py: no-op while RUNNING; otherwise set
RUNNING, reset the clock and clear the stop flag. The wall-clock
start_time write and the thread spawn are not modelled. -/
def Model.start_simulation (m : Model) : Model :=
  if m.state = SimulationState.RUNNING then m
  else
    { m with
      state := SimulationState.RUNNING
      current_time := 0.0
      stop_simulation_flag := false }

/-- pause_simulation from model.py. -/
def Model.pause_simulation (m : Model) : Model :=
  if m.state = SimulationState.RUNNING then { m with state := SimulationState.PAUSED }
  else m

/-- resume_simulation from model.py. -/
def Model.resume_simulation (m : Model) : Model :=
  if m.state = SimulationState.PAUSED then { m with state := SimulationState.RUNNING }
  else m

/-- stop_simulation from model.py; the thread join is not modelled. -/
def Model.stop_simulation (m : Model) : Model :=
  { m with stop_simulation_flag := true, state := SimulationState.STOPPED }

/-- step_simulation from model.py: one tick with the configured time
step, then settle into PAUSED, but only from STOPPED or PAUSED. -/
def Model.step_simulation (msqrt : ℚ → ℚ) (m : Model) : Model :=
  if m.state = SimulationState.STOPPED ∨ m.state = SimulationState.PAUSED then
    let m1 := Model.update_simulation msqrt m m.settings.time_step
    { m1 with state := SimulationState.PAUSED }
  else m

/-- postMoveX is the position a vehicle reaches in the integration step
of move for one tick: unchanged when crashed, otherwise advanced by the
clamped displacement of vehicle.py line dx. -/
def postMoveX (veh : Vehicle) (dt : ℚ) : ℚ :=
  if veh.state.crashed then veh.state.x
  else veh.state.x +
    max 0 (dt * veh.state.velocity + 1/2 * veh.state.acceleration * dt * dt)

/-- specIDMAcceleration is the acceleration prescribed by the
specification (section 4.2) for a vehicle with a leader: desired_gap =
s0 + v·T + v·Δv/(2·sqrt(a_max·b)) and acceleration
a_max·(1 − (v/v0)^4 − (desired_gap/g)²) floored at −b. The parameter
sqrtAB stands for the value of sqrt(a_max·b). This definition follows
the words of the spec and is compared against the embedded code. -/
def specIDMAcceleration (sqrtAB v v0 T s0 aMax b vLeader gap : ℚ) : ℚ :=
  let desired_gap := s0 + v * T + v * (v - vLeader) / (2 * sqrtAB)
  max (aMax * (1 - (v / v0) ^ 4 - (desired_gap / gap) ^ 2)) (-b)

/-- msqrtW is a concrete stand-in for math.sqrt used to instantiate the
closed theorems; no path exercised by them applies it (its value is
irrelevant there), 49/20 approximates sqrt(6). -/
def msqrtW : ℚ → ℚ := fun _ => 49/20

/-- vehC1 is the C1 failing input: an ego vehicle at x=0 with zero
velocity whose FRONT enclosure slot holds vehicle 2. -/
def vehC1 : Vehicle :=
  { mkVehicle 1 1 0 with
    surrounding := sdictSet initialSurrounding (PyKey.enc Enclosure.FRONT) (some 2)
    driverId := some 1 }

/-- leadC1 is the stopped leader of the C1 failing input: x = 5.5 and
length 4.5, so the net gap to the ego vehicle is 1 m. -/
def leadC1 : Vehicle := mkVehicle 2 1 5.5

/-- drvC1 is the IDM driver controlling vehicle 1 in the C1 input. -/
def drvC1 : IDMDriver := { mkIDMDriver 1 DriverType.IDM with vehicleId := some 1 }

/-- mC1 is the C1 failing input model. -/
def mC1 : Model :=
  { lanes := [(1, { id := 1, length := 1000, vehicles := [1, 2] })]
    vehicles := [(1, vehC1), (2, leadC1)]
    drivers := [(1, Driver.idm drvC1)] }

/-- mC2 is the C2 counterexample model: a fast rear vehicle (id 1,
velocity 100) right behind a stopped front vehicle (id 2) on one long
lane; one tick of 1 s makes the rear vehicle overtake without the lane
list being re-sorted. -/
def mC2 : Model :=
  { lanes := [(1, { id := 1, length := 10000, vehicles := [1, 2] })]
    vehicles :=
      [(1, { mkVehicle 1 1 0 with state := { x := 0, velocity := 100 }, driverId := some 1 }),
       (2, { mkVehicle 2 1 1 with state := { x := 1, velocity := 0 }, driverId := some 2 })]
    drivers :=
      [(1, Driver.idm { mkIDMDriver 1 DriverType.IDM with vehicleId := some 1 }),
       (2, Driver.idm { mkIDMDriver 2 DriverType.IDM with vehicleId := some 2 })] }

/-- mC2after is the model after one tick from mC2. -/
def mC2after : Model := Model.update_simulation msqrtW mC2 1

/-- mC3 is the C3 counterexample start state: lane 1 has left neighbor
lane 2; vehicle 1 is on lane 1. -/
def mC3 : Model :=
  { lanes :=
      [(1, { id := 1, length := 1000, vehicles := [1], left := some 2 }),
       (2, { id := 2, length := 1000, right := some 1 }),
       (3, { id := 3, length := 1000 })]
    vehicles := [(1, { mkVehicle 1 1 100 with state := { x := 100, velocity := 10 } })] }

/-- mC3after runs the C3 counterexample trace: start a LEFT change while
lane 1's left neighbor is lane 2, then relink lane 1's left neighbor to
lane 3, then move 3 seconds so the change completes. -/
def mC3after : Model :=
  Vehicle.move (Lane.set_left_lane (Vehicle.start_lane_change mC3 1 LatDirection.LEFT 3.0) 1 3) 1 3

/-- mC3w is a one-step witness state for the amended C3 theorem: vehicle
1 on lane 1 is mid-change to the left (progress 9/10, lateral rate 1/3)
and lane 2 is the left neighbor. -/
def mC3w : Model :=
  { lanes :=
      [(1, { id := 1, length := 1000, vehicles := [1], left := some 2 }),
       (2, { id := 2, length := 1000, right := some 1 })]
    vehicles :=
      [(1, { mkVehicle 1 1 100 with
          state := { x := 100, velocity := 10, lane_change_progress := 9/10 }
          lc_direction := some LatDirection.LEFT
          dy := 1/3 })] }

/-- routeC6 is the C6 counterexample route: a single-lane sequence. -/
def routeC6 : Route := { id := 1, lane_sequence := [5] }

/-- routeC6w is a two-lane route used in the C6 witness. -/
def routeC6w : Route := { id := 9, lane_sequence := [4, 6] }

/-- mC4w is the C4 witness model: one isolated short lane (length 50, no
downstream and no adjacent lanes) with one IDM-driven vehicle at x = 20
and velocity 40; the drive phase brakes it to about -2.149, so the
integration still carries it to about x = 58.9 > 50 and the tick removes
it. -/
def mC4w : Model :=
  { lanes := [(1, { id := 1, length := 50, vehicles := [1] })]
    vehicles :=
      [(1, { mkVehicle 1 1 20 with state := { x := 20, velocity := 40 }, driverId := some 1 })]
    drivers := [(1, Driver.idm { mkIDMDriver 1 DriverType.IDM with vehicleId := some 1 })] }

/-- vehC5w is the C5 witness vehicle: velocity 3 and a braking
acceleration of -5. -/
def vehC5w : Vehicle :=
  { mkVehicle 1 1 20 with state := { x := 20, velocity := 3, acceleration := -5 } }

/-- mC5w is the C5 witness model: vehC5w alone on a plain lane. -/
def mC5w : Model :=
  { lanes := [(1, { id := 1, length := 1000, vehicles := [1] })]
    vehicles := [(1, vehC5w)] }

/-- mC8w is the C8 witness model: a single registered lane 7 and fresh
id counters. -/
def mC8w : Model :=
  { lanes := [(7, { id := 7, length := 500 })] }

/-- mC9w is the C9 witness model: two vehicles whose lane list is stored
out of position order, to exercise the queries on an unsorted list. -/
def mC9w : Model :=
  { lanes := [(1, { id := 1, length := 1000, vehicles := [2, 1] })]
    vehicles :=
      [(1, { mkVehicle 1 1 5 with state := { x := 5 } }),
       (2, { mkVehicle 2 1 9 with state := { x := 9 } })] }

/-- laneC9w is the lane record of mC9w. -/
def laneC9w : Lane := { id := 1, length := 1000, vehicles := [2, 1] }

/-! View functions used to state which parts of the state an operation
leaves untouched. -/

/-- adminView collects the model fields that no per-vehicle operation and
no tick phase modifies. -/
def adminView (m : Model) :=
  (m.state, m.settings, m.current_time, m.stop_simulation_flag,
   m.next_vehicle_id, m.next_driver_id, m.routes)

/-- laneShape is every field of a lane except its vehicle list. -/
def laneShape (l : Lane) :=
  (l.id, l.length, l.upstream, l.downstream, l.left, l.right, l.speed_limit, l.width)

/-- laneShapes is the lanes registry projected to laneShape. -/
def laneShapes (m : Model) :=
  m.lanes.map (fun kv => (kv.1, laneShape kv.2))

/-- behView is every field of a vehicle except acceleration and the
surrounding cache: the parts of a vehicle the drive phase of a tick never
changes for a vehicle that cannot start a lane change. -/
def behView (v : Vehicle) :=
  (v.id, v.laneId, v.state.x, v.state.y, v.state.velocity,
   v.state.lane_change_progress, v.state.crashed, v.lc_direction, v.dy,
   v.length, v.width, v.v_max, v.driverId)

/-- kinView is the kinematic part of a vehicle preserved by
end_lane_change. -/
def kinView (v : Vehicle) :=
  (v.state.x, v.state.velocity, v.state.crashed, v.state.acceleration)

/-- idsOK states the registry wellformedness that each stored vehicle
record carries its own key as its id field, which holds for every state
built through the embedded constructors. -/
def idsOK (m : Model) : Prop :=
  ∀ kv ∈ m.vehicles, kv.2.id = kv.1

/-- noSurrView is every field of a vehicle except the surrounding cache:
exactly what update_vehicle_surroundings leaves unchanged. -/
def noSurrView (v : Vehicle) :=
  (v.id, v.laneId, v.state, v.length, v.width, v.v_max, v.lc_direction, v.dy, v.driverId)

/-! Association list lemmas. -/

theorem assocGet_assocSet_self {α : Type} (d : List (Nat × α)) (k : Nat) (v : α) :
    assocGet (assocSet d k v) k = some v := by
  induction d with
  | nil => simp [assocGet, assocSet]
  | cons kv rest ih =>
    by_cases h : kv.1 = k
    · simp [assocGet, assocSet, h]
    · simp [assocGet, assocSet, h, ih]

theorem assocGet_assocSet_ne {α : Type} (d : List (Nat × α)) (k k1 : Nat) (v : α)
    (h : k1 ≠ k) : assocGet (assocSet d k v) k1 = assocGet d k1 := by
  have h2 : k ≠ k1 := Ne.symm h
  induction d with
  | nil => simp [assocGet, assocSet, h2]
  | cons kv rest ih =>
    by_cases hk : kv.1 = k
    · subst hk
      simp [assocGet, assocSet, h2]
    · by_cases hk1 : kv.1 = k1
      · simp [assocGet, assocSet, hk, hk1, h]
      · simp [assocGet, assocSet, hk, hk1, ih]

theorem assocGet_assocErase_ne {α : Type} (d : List (Nat × α)) (k k1 : Nat)
    (h : k1 ≠ k) : assocGet (assocErase d k) k1 = assocGet d k1 := by
  have h2 : k ≠ k1 := Ne.symm h
  induction d with
  | nil => simp [assocErase]
  | cons kv rest ih =>
    by_cases hk : kv.1 = k
    · subst hk
      simp [assocGet, assocErase, h2]
    · by_cases hk1 : kv.1 = k1
      · simp [assocGet, assocErase, hk, hk1, h]
      · simp [assocGet, assocErase, hk, hk1, ih]

theorem assocGet_eq_none_of_not_mem {α : Type} (d : List (Nat × α)) (k : Nat)
    (h : k ∉ d.map Prod.fst) : assocGet d k = none := by
  induction d with
  | nil => rfl
  | cons kv rest ih =>
    simp only [List.map_cons, List.mem_cons] at h
    push_neg at h
    have h1 : kv.1 ≠ k := Ne.symm h.1
    simp [assocGet, h1, ih h.2]

theorem assocGet_assocErase_self {α : Type} (d : List (Nat × α)) (k : Nat)
    (h : (d.map Prod.fst).Nodup) : assocGet (assocErase d k) k = none := by
  induction d with
  | nil => simp [assocGet, assocErase]
  | cons kv rest ih =>
    simp only [List.map_cons, List.nodup_cons] at h
    by_cases hk : kv.1 = k
    · subst hk
      simp only [assocErase, if_pos rfl]
      exact assocGet_eq_none_of_not_mem rest kv.1 h.1
    · simp [assocGet, assocErase, hk]
      exact ih h.2

theorem assocSet_keys {α : Type} (d : List (Nat × α)) (k : Nat) (v w : α)
    (h : assocGet d k = some v) :
    (assocSet d k w).map Prod.fst = d.map Prod.fst := by
  induction d with
  | nil => simp [assocGet] at h
  | cons kv rest ih =>
    by_cases hk : kv.1 = k
    · simp [assocSet, hk]
    · simp only [assocGet, if_neg hk] at h
      simp [assocSet, hk, ih h]

theorem assocErase_keys_sub {α : Type} (d : List (Nat × α)) (k : Nat) :
    ((assocErase d k).map Prod.fst).Sublist (d.map Prod.fst) := by
  induction d with
  | nil => simp [assocErase]
  | cons kv rest ih =>
    by_cases hk : kv.1 = k
    · simp only [assocErase, if_pos hk]
      exact List.sublist_cons_self kv.1 (rest.map Prod.fst)
    · simpa [assocErase, hk] using ih.cons₂ kv.1

/-- assocGet through a value-map of the association list. -/
theorem assocGet_map_snd {α β : Type} (f : α → β) (d : List (Nat × α)) (k : Nat) :
    assocGet (d.map (fun kv => (kv.1, f kv.2))) k = (assocGet d k).map f := by
  induction d with
  | nil => simp [assocGet]
  | cons kv rest ih =>
    by_cases hk : kv.1 = k
    · simp [assocGet, hk]
    · simp [assocGet, hk, ih]

/-- View-preserving registry write: rewriting a key with a value that has
the same view leaves every view-projected lookup unchanged. -/
theorem assocGet_set_view {α β : Type} (view : α → β) (d : List (Nat × α)) (k : Nat)
    (v w : α) (hget : assocGet d k = some v) (hview : view w = view v) (k1 : Nat) :
    (assocGet (assocSet d k w) k1).map view = (assocGet d k1).map view := by
  by_cases hk : k1 = k
  · subst hk
    rw [assocGet_assocSet_self, hget]
    simp [hview]
  · rw [assocGet_assocSet_ne _ _ _ _ hk]

/-- Fold invariance helper. -/
theorem foldl_preserve {α : Type} (P : Model → Prop) (f : Model → α → Model)
    (l : List α) (m : Model) (hm : P m) (hf : ∀ m1 a, P m1 → P (f m1 a)) :
    P (l.foldl f m) := by
  induction l generalizing m with
  | nil => exact hm
  | cons a l ih => exact ih _ (hf _ _ hm)

theorem map_assocSet_view {α β : Type} (view : α → β) (d : List (Nat × α)) (k : Nat)
    (v w : α) (hget : assocGet d k = some v) (hview : view w = view v) :
    (assocSet d k w).map (fun kv => (kv.1, view kv.2)) =
      d.map (fun kv => (kv.1, view kv.2)) := by
  induction d with
  | nil => simp [assocGet] at hget
  | cons kv rest ih =>
    by_cases hk : kv.1 = k
    · subst hk
      simp only [assocGet, if_pos rfl, if_true, eq_self_iff_true, Option.some.injEq] at hget
      simp [assocSet, hview, hget]
    · simp only [assocGet, if_neg hk] at hget
      simp [assocSet, hk, ih hget]


theorem adminView_setVehicle (m : Model) (vid : Nat) (v : Vehicle) :
    adminView (setVehicle m vid v) = adminView m := rfl

theorem adminView_setLane (m : Model) (lid : Nat) (l : Lane) :
    adminView (setLane m lid l) = adminView m := rfl

theorem lanes_setVehicle (m : Model) (vid : Nat) (v : Vehicle) :
    (setVehicle m vid v).lanes = m.lanes := rfl

theorem vehicles_setLane (m : Model) (lid : Nat) (l : Lane) :
    (setLane m lid l).vehicles = m.vehicles := rfl

theorem drivers_setVehicle (m : Model) (vid : Nat) (v : Vehicle) :
    (setVehicle m vid v).drivers = m.drivers := rfl

theorem drivers_setLane (m : Model) (lid : Nat) (l : Lane) :
    (setLane m lid l).drivers = m.drivers := rfl

theorem stats_setVehicle (m : Model) (vid : Nat) (v : Vehicle) :
    (setVehicle m vid v).stats = m.stats := rfl

theorem stats_setLane (m : Model) (lid : Nat) (l : Lane) :
    (setLane m lid l).stats = m.stats := rfl

theorem adminView_laneAdd (m : Model) (lid vid : Nat) :
    adminView (Lane.add_vehicle m lid vid) = adminView m := by
  unfold Lane.add_vehicle
  repeat' first | rfl | split | dsimp only

theorem drivers_laneAdd (m : Model) (lid vid : Nat) :
    (Lane.add_vehicle m lid vid).drivers = m.drivers := by
  unfold Lane.add_vehicle
  repeat' first | rfl | split | dsimp only

theorem stats_laneAdd (m : Model) (lid vid : Nat) :
    (Lane.add_vehicle m lid vid).stats = m.stats := by
  unfold Lane.add_vehicle
  repeat' first | rfl | split | dsimp only

theorem laneShapes_laneAdd (m : Model) (lid vid : Nat) :
    laneShapes (Lane.add_vehicle m lid vid) = laneShapes m := by
  unfold Lane.add_vehicle
  split
  · rfl
  case h_2 lane hget =>
    split
    · rfl
    · have hset : laneShapes (setLane m lid { lane with vehicles := sortByX m (lane.vehicles ++ [vid]) }) = laneShapes m := by
        unfold laneShapes setLane
        exact map_assocSet_view laneShape m.lanes lid lane _ hget rfl
      dsimp only
      split <;> exact hset

theorem adminView_laneRemove (m : Model) (lid vid : Nat) :
    adminView (Lane.remove_vehicle m lid vid) = adminView m := by
  unfold Lane.remove_vehicle
  repeat' first | rfl | split | dsimp only

theorem drivers_laneRemove (m : Model) (lid vid : Nat) :
    (Lane.remove_vehicle m lid vid).drivers = m.drivers := by
  unfold Lane.remove_vehicle
  repeat' first | rfl | split | dsimp only

theorem stats_laneRemove (m : Model) (lid vid : Nat) :
    (Lane.remove_vehicle m lid vid).stats = m.stats := by
  unfold Lane.remove_vehicle
  repeat' first | rfl | split | dsimp only

theorem vehicles_laneRemove (m : Model) (lid vid : Nat) :
    (Lane.remove_vehicle m lid vid).vehicles = m.vehicles := by
  unfold Lane.remove_vehicle
  repeat' first | rfl | split | dsimp only

theorem laneShapes_laneRemove (m : Model) (lid vid : Nat) :
    laneShapes (Lane.remove_vehicle m lid vid) = laneShapes m := by
  unfold Lane.remove_vehicle
  split
  · rfl
  case h_2 lane hget =>
    split
    · unfold laneShapes setLane
      exact map_assocSet_view laneShape m.lanes lid lane _ hget rfl
    · rfl

theorem adminView_startLC (m : Model) (vid : Nat) (dir : LatDirection) (dur : ℚ) :
    adminView (Vehicle.start_lane_change m vid dir dur) = adminView m := by
  unfold Vehicle.start_lane_change
  repeat' first | rfl | split | dsimp only

theorem lanes_startLC (m : Model) (vid : Nat) (dir : LatDirection) (dur : ℚ) :
    (Vehicle.start_lane_change m vid dir dur).lanes = m.lanes := by
  unfold Vehicle.start_lane_change
  repeat' first | rfl | split | dsimp only

theorem drivers_startLC (m : Model) (vid : Nat) (dir : LatDirection) (dur : ℚ) :
    (Vehicle.start_lane_change m vid dir dur).drivers = m.drivers := by
  unfold Vehicle.start_lane_change
  repeat' first | rfl | split | dsimp only

theorem stats_startLC (m : Model) (vid : Nat) (dir : LatDirection) (dur : ℚ) :
    (Vehicle.start_lane_change m vid dir dur).stats = m.stats := by
  unfold Vehicle.start_lane_change
  repeat' first | rfl | split | dsimp only

theorem getVeh_startLC_other (m : Model) (vid : Nat) (dir : LatDirection) (dur : ℚ)
    (k : Nat) (h : k ≠ vid) :
    assocGet (Vehicle.start_lane_change m vid dir dur).vehicles k =
      assocGet m.vehicles k := by
  unfold Vehicle.start_lane_change
  split
  · rfl
  · split
    · rfl
    · exact assocGet_assocSet_ne _ _ _ _ h


theorem assocGet_mem {α : Type} (d : List (Nat × α)) (k : Nat) (v : α)
    (h : assocGet d k = some v) : (k, v) ∈ d := by
  induction d with
  | nil => simp [assocGet] at h
  | cons kv rest ih =>
    by_cases hk : kv.1 = k
    · subst hk
      simp [assocGet] at h
      rw [← h]
      exact List.mem_cons_self _ _
    · simp only [assocGet, if_neg hk] at h
      exact List.mem_cons_of_mem _ (ih h)

theorem keys_assocSet_of_get {α : Type} (d : List (Nat × α)) (k : Nat) (v w : α)
    (hget : assocGet d k = some v) :
    (assocSet d k w).map Prod.fst = d.map Prod.fst :=
  assocSet_keys d k v w hget

/-- Registry write through an arbitrary view: if the written value has
the same view as the stored one, every view-projected lookup is
unchanged. -/
theorem getVeh_setVehicle_view {β : Type} (view : Vehicle → β) (m : Model) (vid : Nat)
    (veh w : Vehicle) (hget : assocGet m.vehicles vid = some veh)
    (hview : view w = view veh) (k : Nat) :
    (assocGet (setVehicle m vid w).vehicles k).map view =
      (assocGet m.vehicles k).map view :=
  assocGet_set_view view m.vehicles vid veh w hget hview k

/-- kinView is unchanged by the lane.add_vehicle back-reference write. -/
theorem kinView_getVeh_laneAdd (m : Model) (lid vid k : Nat) :
    (assocGet (Lane.add_vehicle m lid vid).vehicles k).map kinView =
      (assocGet m.vehicles k).map kinView := by
  unfold Lane.add_vehicle
  split
  · rfl
  · split
    · rfl
    · dsimp only
      split
      · rfl
      case h_2 veh hget =>
        exact getVeh_setVehicle_view kinView _ vid veh { veh with laneId := lid } hget rfl k

theorem getVeh_laneAdd_other (m : Model) (lid vid k : Nat) (h : k ≠ vid) :
    assocGet (Lane.add_vehicle m lid vid).vehicles k = assocGet m.vehicles k := by
  unfold Lane.add_vehicle
  split
  · rfl
  · split
    · rfl
    · dsimp only
      split
      · rfl
      · exact assocGet_assocSet_ne _ _ _ _ h

theorem keys_laneAdd (m : Model) (lid vid : Nat) :
    (Lane.add_vehicle m lid vid).vehicles.map Prod.fst = m.vehicles.map Prod.fst := by
  unfold Lane.add_vehicle
  split
  · rfl
  · split
    · rfl
    · dsimp only
      split
      · rfl
      case h_2 veh hget => exact keys_assocSet_of_get _ _ veh { veh with laneId := lid } hget

theorem kinView_getVeh_endLCSwitch (m : Model) (oldLid tid vid k : Nat) :
    (assocGet (endLCSwitch m oldLid tid vid).vehicles k).map kinView =
      (assocGet m.vehicles k).map kinView := by
  unfold endLCSwitch
  dsimp only
  rw [kinView_getVeh_laneAdd]
  split
  case h_1 veh2 hget2 =>
    rw [getVeh_setVehicle_view kinView (Lane.remove_vehicle m oldLid vid) vid veh2
        { veh2 with laneId := tid } hget2 rfl k, vehicles_laneRemove]
  case h_2 => rw [vehicles_laneRemove]

theorem getVeh_endLCSwitch_other (m : Model) (oldLid tid vid k : Nat) (h : k ≠ vid) :
    assocGet (endLCSwitch m oldLid tid vid).vehicles k = assocGet m.vehicles k := by
  unfold endLCSwitch
  dsimp only
  rw [getVeh_laneAdd_other _ _ _ _ h]
  split
  · rw [show (setVehicle _ vid _).vehicles = assocSet (Lane.remove_vehicle m oldLid vid).vehicles vid _ from rfl,
        assocGet_assocSet_ne _ _ _ _ h, vehicles_laneRemove]
  · rw [vehicles_laneRemove]

theorem keys_endLCSwitch (m : Model) (oldLid tid vid : Nat) :
    (endLCSwitch m oldLid tid vid).vehicles.map Prod.fst = m.vehicles.map Prod.fst := by
  unfold endLCSwitch
  dsimp only
  rw [keys_laneAdd]
  split
  case h_1 veh2 hget2 =>
    rw [show (setVehicle (Lane.remove_vehicle m oldLid vid) vid { veh2 with laneId := tid }).vehicles
          = assocSet (Lane.remove_vehicle m oldLid vid).vehicles vid { veh2 with laneId := tid } from rfl,
        keys_assocSet_of_get _ _ veh2 { veh2 with laneId := tid } hget2, vehicles_laneRemove]
  case h_2 => rw [vehicles_laneRemove]

theorem adminView_endLCSwitch (m : Model) (oldLid tid vid : Nat) :
    adminView (endLCSwitch m oldLid tid vid) = adminView m := by
  unfold endLCSwitch
  dsimp only
  rw [adminView_laneAdd]
  split
  · rw [adminView_setVehicle, adminView_laneRemove]
  · rw [adminView_laneRemove]

theorem drivers_endLCSwitch (m : Model) (oldLid tid vid : Nat) :
    (endLCSwitch m oldLid tid vid).drivers = m.drivers := by
  unfold endLCSwitch
  dsimp only
  rw [drivers_laneAdd]
  split
  · rw [drivers_setVehicle, drivers_laneRemove]
  · rw [drivers_laneRemove]

theorem stats_endLCSwitch (m : Model) (oldLid tid vid : Nat) :
    (endLCSwitch m oldLid tid vid).stats = m.stats := by
  unfold endLCSwitch
  dsimp only
  rw [stats_laneAdd]
  split
  · rw [stats_setVehicle, stats_laneRemove]
  · rw [stats_laneRemove]

theorem laneShapes_endLCSwitch (m : Model) (oldLid tid vid : Nat) :
    laneShapes (endLCSwitch m oldLid tid vid) = laneShapes m := by
  unfold endLCSwitch
  dsimp only
  rw [laneShapes_laneAdd]
  split
  · rw [show laneShapes (setVehicle _ _ _) = laneShapes (Lane.remove_vehicle m oldLid vid) from rfl,
        laneShapes_laneRemove]
  · rw [laneShapes_laneRemove]

theorem kinView_getVeh_endLCReset (m : Model) (vid k : Nat) :
    (assocGet (endLCReset m vid).vehicles k).map kinView =
      (assocGet m.vehicles k).map kinView := by
  unfold endLCReset
  split
  · rfl
  case h_2 veh3 hget3 =>
    exact getVeh_setVehicle_view kinView _ vid veh3
      { veh3 with
        state := { veh3.state with lane_change_progress := 0 }
        lc_direction := none
        dy := 0 } hget3 rfl k

theorem getVeh_endLCReset_other (m : Model) (vid k : Nat) (h : k ≠ vid) :
    assocGet (endLCReset m vid).vehicles k = assocGet m.vehicles k := by
  unfold endLCReset
  split
  · rfl
  · exact assocGet_assocSet_ne _ _ _ _ h

theorem keys_endLCReset (m : Model) (vid : Nat) :
    (endLCReset m vid).vehicles.map Prod.fst = m.vehicles.map Prod.fst := by
  unfold endLCReset
  split
  · rfl
  case h_2 veh3 hget3 =>
    exact keys_assocSet_of_get _ _ veh3
      { veh3 with
        state := { veh3.state with lane_change_progress := 0 }
        lc_direction := none
        dy := 0 } hget3

theorem adminView_endLCReset (m : Model) (vid : Nat) :
    adminView (endLCReset m vid) = adminView m := by
  unfold endLCReset
  split <;> rfl

theorem lanes_endLCReset (m : Model) (vid : Nat) :
    (endLCReset m vid).lanes = m.lanes := by
  unfold endLCReset
  split <;> rfl

theorem drivers_endLCReset (m : Model) (vid : Nat) :
    (endLCReset m vid).drivers = m.drivers := by
  unfold endLCReset
  split <;> rfl

theorem stats_endLCReset (m : Model) (vid : Nat) :
    (endLCReset m vid).stats = m.stats := by
  unfold endLCReset
  split <;> rfl

theorem kinView_getVeh_endLC (m : Model) (vid k : Nat) :
    (assocGet (Vehicle.end_lane_change m vid).vehicles k).map kinView =
      (assocGet m.vehicles k).map kinView := by
  unfold Vehicle.end_lane_change
  split
  · rfl
  · split
    case isFalse => rfl
    case isTrue =>
      rw [kinView_getVeh_endLCReset]
      split
      · rw [kinView_getVeh_endLCSwitch]
      · rfl

theorem getVeh_endLC_other (m : Model) (vid k : Nat) (h : k ≠ vid) :
    assocGet (Vehicle.end_lane_change m vid).vehicles k = assocGet m.vehicles k := by
  unfold Vehicle.end_lane_change
  split
  · rfl
  · split
    case isFalse => rfl
    case isTrue =>
      rw [getVeh_endLCReset_other _ _ _ h]
      split
      · rw [getVeh_endLCSwitch_other _ _ _ _ _ h]
      · rfl

theorem keys_endLC (m : Model) (vid : Nat) :
    (Vehicle.end_lane_change m vid).vehicles.map Prod.fst = m.vehicles.map Prod.fst := by
  unfold Vehicle.end_lane_change
  split
  · rfl
  · split
    case isFalse => rfl
    case isTrue =>
      rw [keys_endLCReset]
      split
      · rw [keys_endLCSwitch]
      · rfl

theorem adminView_endLC (m : Model) (vid : Nat) :
    adminView (Vehicle.end_lane_change m vid) = adminView m := by
  unfold Vehicle.end_lane_change
  split
  · rfl
  · split
    case isFalse => rfl
    case isTrue =>
      rw [adminView_endLCReset]
      split
      · rw [adminView_endLCSwitch]
      · rfl

theorem laneShapes_endLCReset (m : Model) (vid : Nat) :
    laneShapes (endLCReset m vid) = laneShapes m := by
  unfold laneShapes
  rw [lanes_endLCReset]

theorem laneShapes_endLC (m : Model) (vid : Nat) :
    laneShapes (Vehicle.end_lane_change m vid) = laneShapes m := by
  unfold Vehicle.end_lane_change
  split
  · rfl
  · split
    case isFalse => rfl
    case isTrue =>
      rw [laneShapes_endLCReset]
      split
      · rw [laneShapes_endLCSwitch]
      · rfl

theorem drivers_endLC (m : Model) (vid : Nat) :
    (Vehicle.end_lane_change m vid).drivers = m.drivers := by
  unfold Vehicle.end_lane_change
  split
  · rfl
  · split
    case isFalse => rfl
    case isTrue =>
      rw [drivers_endLCReset]
      split
      · rw [drivers_endLCSwitch]
      · rfl

theorem stats_endLC (m : Model) (vid : Nat) :
    (Vehicle.end_lane_change m vid).stats = m.stats := by
  unfold Vehicle.end_lane_change
  split
  · rfl
  · split
    case isFalse => rfl
    case isTrue =>
      rw [stats_endLCReset]
      split
      · rw [stats_endLCSwitch]
      · rfl

theorem getVeh_moveLateral_other (m : Model) (vid : Nat) (veh : Vehicle) (dt : ℚ)
    (k : Nat) (h : k ≠ vid) :
    assocGet (moveLateral m vid veh dt).vehicles k = assocGet m.vehicles k := by
  unfold moveLateral
  dsimp only
  split
  · rw [getVeh_endLC_other _ _ _ h, show (setVehicle m vid _).vehicles = assocSet m.vehicles vid _ from rfl,
        assocGet_assocSet_ne _ _ _ _ h]
  · exact assocGet_assocSet_ne _ _ _ _ h

theorem keys_moveLateral (m : Model) (vid : Nat) (veh : Vehicle) (dt : ℚ)
    (hget : assocGet m.vehicles vid = some veh) :
    (moveLateral m vid veh dt).vehicles.map Prod.fst = m.vehicles.map Prod.fst := by
  unfold moveLateral
  dsimp only
  have hset : ∀ w : Vehicle, (setVehicle m vid w).vehicles.map Prod.fst = m.vehicles.map Prod.fst := by
    intro w
    exact keys_assocSet_of_get _ _ veh w hget
  split
  · rw [keys_endLC, hset]
  · exact hset _

theorem adminView_moveLateral (m : Model) (vid : Nat) (veh : Vehicle) (dt : ℚ) :
    adminView (moveLateral m vid veh dt) = adminView m := by
  unfold moveLateral
  dsimp only
  split
  · rw [adminView_endLC, adminView_setVehicle]
  · rw [adminView_setVehicle]

theorem laneShapes_moveLateral (m : Model) (vid : Nat) (veh : Vehicle) (dt : ℚ) :
    laneShapes (moveLateral m vid veh dt) = laneShapes m := by
  unfold moveLateral
  dsimp only
  split
  · rw [laneShapes_endLC]
    rfl
  · rfl

theorem drivers_moveLateral (m : Model) (vid : Nat) (veh : Vehicle) (dt : ℚ) :
    (moveLateral m vid veh dt).drivers = m.drivers := by
  unfold moveLateral
  dsimp only
  split
  · rw [drivers_endLC, drivers_setVehicle]
  · rw [drivers_setVehicle]

theorem stats_moveLateral (m : Model) (vid : Nat) (veh : Vehicle) (dt : ℚ) :
    (moveLateral m vid veh dt).stats = m.stats := by
  unfold moveLateral
  dsimp only
  split
  · rw [stats_endLC, stats_setVehicle]
  · rw [stats_setVehicle]

theorem getVeh_moveIntegrate_other (m : Model) (vid : Nat) (dt : ℚ) (k : Nat)
    (h : k ≠ vid) :
    assocGet (moveIntegrate m vid dt).vehicles k = assocGet m.vehicles k := by
  unfold moveIntegrate
  split
  · rfl
  · exact assocGet_assocSet_ne _ _ _ _ h

theorem keys_moveIntegrate (m : Model) (vid : Nat) (dt : ℚ) :
    (moveIntegrate m vid dt).vehicles.map Prod.fst = m.vehicles.map Prod.fst := by
  unfold moveIntegrate
  split
  · rfl
  case h_2 veh2 hget2 => exact keys_assocSet_of_get _ _ veh2 _ hget2

theorem adminView_moveIntegrate (m : Model) (vid : Nat) (dt : ℚ) :
    adminView (moveIntegrate m vid dt) = adminView m := by
  unfold moveIntegrate
  split <;> rfl

theorem lanes_moveIntegrate (m : Model) (vid : Nat) (dt : ℚ) :
    (moveIntegrate m vid dt).lanes = m.lanes := by
  unfold moveIntegrate
  split <;> rfl

theorem drivers_moveIntegrate (m : Model) (vid : Nat) (dt : ℚ) :
    (moveIntegrate m vid dt).drivers = m.drivers := by
  unfold moveIntegrate
  split <;> rfl

theorem stats_moveIntegrate (m : Model) (vid : Nat) (dt : ℚ) :
    (moveIntegrate m vid dt).stats = m.stats := by
  unfold moveIntegrate
  split <;> rfl

theorem laneShapes_moveIntegrate (m : Model) (vid : Nat) (dt : ℚ) :
    laneShapes (moveIntegrate m vid dt) = laneShapes m := by
  unfold laneShapes
  rw [lanes_moveIntegrate]

theorem getVeh_move_other (m : Model) (vid : Nat) (dt : ℚ) (k : Nat) (h : k ≠ vid) :
    assocGet (Vehicle.move m vid dt).vehicles k = assocGet m.vehicles k := by
  unfold Vehicle.move
  split
  · rfl
  · split
    · rfl
    · rw [getVeh_moveIntegrate_other _ _ _ _ h]
      split
      · rw [getVeh_moveLateral_other _ _ _ _ _ h]
      · rfl

theorem keys_move (m : Model) (vid : Nat) (dt : ℚ) :
    (Vehicle.move m vid dt).vehicles.map Prod.fst = m.vehicles.map Prod.fst := by
  unfold Vehicle.move
  split
  · rfl
  case h_2 veh hget =>
    split
    · rfl
    · rw [keys_moveIntegrate]
      split
      · rw [keys_moveLateral _ _ _ _ hget]
      · rfl

theorem adminView_move (m : Model) (vid : Nat) (dt : ℚ) :
    adminView (Vehicle.move m vid dt) = adminView m := by
  unfold Vehicle.move
  split
  · rfl
  · split
    · rfl
    · rw [adminView_moveIntegrate]
      split
      · rw [adminView_moveLateral]
      · rfl

theorem laneShapes_move (m : Model) (vid : Nat) (dt : ℚ) :
    laneShapes (Vehicle.move m vid dt) = laneShapes m := by
  unfold Vehicle.move
  split
  · rfl
  · split
    · rfl
    · rw [laneShapes_moveIntegrate]
      split
      · rw [laneShapes_moveLateral]
      · rfl

theorem drivers_move (m : Model) (vid : Nat) (dt : ℚ) :
    (Vehicle.move m vid dt).drivers = m.drivers := by
  unfold Vehicle.move
  split
  · rfl
  · split
    · rfl
    · rw [drivers_moveIntegrate]
      split
      · rw [drivers_moveLateral]
      · rfl

theorem stats_move (m : Model) (vid : Nat) (dt : ℚ) :
    (Vehicle.move m vid dt).stats = m.stats := by
  unfold Vehicle.move
  split
  · rfl
  · split
    · rfl
    · rw [stats_moveIntegrate]
      split
      · rw [stats_moveLateral]
      · rfl

theorem getVeh_removeVehicle_other (m : Model) (vid k : Nat) (h : k ≠ vid) :
    assocGet (Model.remove_vehicle m vid).vehicles k = assocGet m.vehicles k := by
  unfold Model.remove_vehicle
  split
  · rfl
  case h_2 veh hveh =>
    dsimp only
    rw [assocGet_assocErase_ne _ _ _ h]
    split
    · split
      · dsimp only
        rw [vehicles_laneRemove]
      · rw [vehicles_laneRemove]
    · rw [vehicles_laneRemove]

theorem keys_removeVehicle_sublist (m : Model) (vid : Nat) :
    ((Model.remove_vehicle m vid).vehicles.map Prod.fst).Sublist
      (m.vehicles.map Prod.fst) := by
  unfold Model.remove_vehicle
  split
  · exact List.Sublist.refl _
  case h_2 veh hveh =>
    dsimp only
    have he : ∀ d : List (Nat × Vehicle), d = m.vehicles →
        ((assocErase d vid).map Prod.fst).Sublist (m.vehicles.map Prod.fst) := by
      intro d hd
      rw [← hd] at *
      exact hd ▸ assocErase_keys_sub d vid
    split
    · split
      · dsimp only
        exact he _ (vehicles_laneRemove _ _ _)
      · exact he _ (vehicles_laneRemove _ _ _)
    · exact he _ (vehicles_laneRemove _ _ _)

theorem getVeh_removeVehicle_self (m : Model) (vid : Nat)
    (h : (m.vehicles.map Prod.fst).Nodup) :
    assocGet (Model.remove_vehicle m vid).vehicles vid = none := by
  unfold Model.remove_vehicle
  split
  case h_1 hveh => exact hveh
  case h_2 veh hveh =>
    dsimp only
    have he : ∀ d : List (Nat × Vehicle), d = m.vehicles →
        assocGet (assocErase d vid) vid = none := by
      intro d hd
      rw [hd]
      exact assocGet_assocErase_self m.vehicles vid h
    split
    · split
      · dsimp only
        exact he _ (vehicles_laneRemove _ _ _)
      · exact he _ (vehicles_laneRemove _ _ _)
    · exact he _ (vehicles_laneRemove _ _ _)

theorem adminView_removeVehicle (m : Model) (vid : Nat) :
    adminView (Model.remove_vehicle m vid) = adminView m := by
  unfold Model.remove_vehicle
  split
  · rfl
  · dsimp only
    split
    · split
      · exact adminView_laneRemove _ _ _
      · exact adminView_laneRemove _ _ _
    · exact adminView_laneRemove _ _ _

theorem laneShapes_removeVehicle (m : Model) (vid : Nat) :
    laneShapes (Model.remove_vehicle m vid) = laneShapes m := by
  unfold Model.remove_vehicle
  split
  · rfl
  · dsimp only
    split
    · split
      · exact laneShapes_laneRemove _ _ _
      · exact laneShapes_laneRemove _ _ _
    · exact laneShapes_laneRemove _ _ _

/-- Statistics effect of Model.remove_vehicle on a present vehicle. -/
theorem stats_removeVehicle (m : Model) (vid : Nat) (veh : Vehicle)
    (hveh : assocGet m.vehicles vid = some veh) :
    (Model.remove_vehicle m vid).stats.active_vehicles = m.stats.active_vehicles - 1 ∧
    (Model.remove_vehicle m vid).stats.crashed_vehicles =
      m.stats.crashed_vehicles + (if veh.state.crashed then 1 else 0) ∧
    (Model.remove_vehicle m vid).stats.completed_vehicles =
      m.stats.completed_vehicles + (if veh.state.crashed then 0 else 1) := by
  unfold Model.remove_vehicle
  rw [hveh]
  dsimp only
  have hlr : (Lane.remove_vehicle m veh.laneId vid).stats = m.stats :=
    stats_laneRemove _ _ _
  split
  · split
    · dsimp only
      rw [hlr]
      exact ⟨rfl, rfl, rfl⟩
    · rw [hlr]
      exact ⟨rfl, rfl, rfl⟩
  · rw [hlr]
    exact ⟨rfl, rfl, rfl⟩

theorem getVeh_moveAndCheck_other (m : Model) (dt : ℚ) (vid k : Nat) (h : k ≠ vid) :
    assocGet (moveAndCheck m dt vid).vehicles k = assocGet m.vehicles k := by
  unfold moveAndCheck
  dsimp only
  split
  · rw [getVeh_move_other _ _ _ _ h]
  · split
    · rw [getVeh_removeVehicle_other _ _ _ h, getVeh_move_other _ _ _ _ h]
    · rw [getVeh_move_other _ _ _ _ h]

theorem adminView_moveAndCheck (m : Model) (dt : ℚ) (vid : Nat) :
    adminView (moveAndCheck m dt vid) = adminView m := by
  unfold moveAndCheck
  dsimp only
  split
  · rw [adminView_move]
  · split
    · rw [adminView_removeVehicle, adminView_move]
    · rw [adminView_move]

theorem laneShapes_moveAndCheck (m : Model) (dt : ℚ) (vid : Nat) :
    laneShapes (moveAndCheck m dt vid) = laneShapes m := by
  unfold moveAndCheck
  dsimp only
  split
  · rw [laneShapes_move]
  · split
    · rw [laneShapes_removeVehicle, laneShapes_move]
    · rw [laneShapes_move]

theorem keysNodup_moveAndCheck (m : Model) (dt : ℚ) (vid : Nat)
    (h : (m.vehicles.map Prod.fst).Nodup) :
    ((moveAndCheck m dt vid).vehicles.map Prod.fst).Nodup := by
  have hmove : ((Vehicle.move m vid dt).vehicles.map Prod.fst).Nodup := by
    rw [keys_move]
    exact h
  unfold moveAndCheck
  dsimp only
  split
  · exact hmove
  · split
    · exact List.Nodup.sublist (keys_removeVehicle_sublist _ _) hmove
    · exact hmove

theorem mem_assocSet {α : Type} (d : List (Nat × α)) (k : Nat) (w : α)
    (kv : Nat × α) (h : kv ∈ assocSet d k w) : kv = (k, w) ∨ kv ∈ d := by
  induction d with
  | nil =>
    simp only [assocSet, List.mem_singleton] at h
    exact Or.inl h
  | cons kv1 rest ih =>
    by_cases hk : kv1.1 = k
    · simp only [assocSet, if_pos hk] at h
      rcases List.mem_cons.mp h with h1 | h1
      · left
        rw [h1, hk]
      · right
        exact List.mem_cons_of_mem _ h1
    · simp only [assocSet, if_neg hk] at h
      rcases List.mem_cons.mp h with h1 | h1
      · right
        rw [h1]
        exact List.mem_cons_self _ _
      · rcases ih h1 with h2 | h2
        · exact Or.inl h2
        · exact Or.inr (List.mem_cons_of_mem _ h2)


theorem idsOK_setVehicle (m : Model) (vid : Nat) (veh w : Vehicle)
    (hget : assocGet m.vehicles vid = some veh) (hid : w.id = veh.id)
    (hids : idsOK m) : idsOK (setVehicle m vid w) := by
  have hvid : veh.id = vid := hids _ (assocGet_mem _ _ _ hget)
  intro kv hkv
  rcases mem_assocSet _ _ _ _ hkv with h | h
  · rw [h]
    rw [show ((vid, w) : Nat × Vehicle).2 = w from rfl, hid, hvid]
  · exact hids _ h

theorem keys_startLC (m : Model) (vid : Nat) (dir : LatDirection) (dur : ℚ) :
    (Vehicle.start_lane_change m vid dir dur).vehicles.map Prod.fst =
      m.vehicles.map Prod.fst := by
  unfold Vehicle.start_lane_change
  split
  · rfl
  case h_2 veh hget =>
    split
    · rfl
    · exact keys_assocSet_of_get _ _ veh _ hget

theorem idsOK_startLC (m : Model) (vid : Nat) (dir : LatDirection) (dur : ℚ)
    (hids : idsOK m) : idsOK (Vehicle.start_lane_change m vid dir dur) := by
  unfold Vehicle.start_lane_change
  split
  · exact hids
  case h_2 veh hget =>
    split
    · exact hids
    · exact idsOK_setVehicle m vid veh _ hget rfl hids

theorem lanes_considerLC (msqrt : ℚ → ℚ) (m : Model) (d : IDMDriver) :
    (IDMDriver.consider_lane_change msqrt m d).lanes = m.lanes := by
  unfold IDMDriver.consider_lane_change
  repeat' first | rfl | rw [lanes_startLC] | split | dsimp only

theorem drivers_considerLC (msqrt : ℚ → ℚ) (m : Model) (d : IDMDriver) :
    (IDMDriver.consider_lane_change msqrt m d).drivers = m.drivers := by
  unfold IDMDriver.consider_lane_change
  repeat' first | rfl | rw [drivers_startLC] | split | dsimp only

theorem adminView_considerLC (msqrt : ℚ → ℚ) (m : Model) (d : IDMDriver) :
    adminView (IDMDriver.consider_lane_change msqrt m d) = adminView m := by
  unfold IDMDriver.consider_lane_change
  repeat' first | rfl | rw [adminView_startLC] | split | dsimp only

theorem keys_considerLC (msqrt : ℚ → ℚ) (m : Model) (d : IDMDriver) :
    (IDMDriver.consider_lane_change msqrt m d).vehicles.map Prod.fst =
      m.vehicles.map Prod.fst := by
  unfold IDMDriver.consider_lane_change
  repeat' first | rfl | rw [keys_startLC] | split | dsimp only

theorem idsOK_considerLC (msqrt : ℚ → ℚ) (m : Model) (d : IDMDriver)
    (hids : idsOK m) : idsOK (IDMDriver.consider_lane_change msqrt m d) := by
  unfold IDMDriver.consider_lane_change
  repeat' first | exact hids | exact idsOK_startLC _ _ _ _ hids | split | dsimp only

theorem lanes_drive (msqrt : ℚ → ℚ) (m : Model) (d : Driver) :
    (Driver.drive msqrt m d).lanes = m.lanes := by
  cases d with
  | idm d =>
    show (IDMDriver.drive msqrt m d).lanes = m.lanes
    unfold IDMDriver.drive
    split
    · rfl
    · split
      · rfl
      · rw [lanes_considerLC, lanes_setVehicle]
  | simple d =>
    show (SimpleDriver.drive m d).lanes = m.lanes
    unfold SimpleDriver.drive
    repeat' first | rfl | split | dsimp only

theorem drivers_drive (msqrt : ℚ → ℚ) (m : Model) (d : Driver) :
    (Driver.drive msqrt m d).drivers = m.drivers := by
  cases d with
  | idm d =>
    show (IDMDriver.drive msqrt m d).drivers = m.drivers
    unfold IDMDriver.drive
    split
    · rfl
    · split
      · rfl
      · rw [drivers_considerLC, drivers_setVehicle]
  | simple d =>
    show (SimpleDriver.drive m d).drivers = m.drivers
    unfold SimpleDriver.drive
    repeat' first | rfl | split | dsimp only

theorem adminView_drive (msqrt : ℚ → ℚ) (m : Model) (d : Driver) :
    adminView (Driver.drive msqrt m d) = adminView m := by
  cases d with
  | idm d =>
    show adminView (IDMDriver.drive msqrt m d) = adminView m
    unfold IDMDriver.drive
    split
    · rfl
    · split
      · rfl
      · rw [adminView_considerLC, adminView_setVehicle]
  | simple d =>
    show adminView (SimpleDriver.drive m d) = adminView m
    unfold SimpleDriver.drive
    repeat' first | rfl | split | dsimp only

theorem keys_drive (msqrt : ℚ → ℚ) (m : Model) (d : Driver) (hids : idsOK m) :
    (Driver.drive msqrt m d).vehicles.map Prod.fst = m.vehicles.map Prod.fst := by
  cases d with
  | idm d =>
    show (IDMDriver.drive msqrt m d).vehicles.map Prod.fst = _
    unfold IDMDriver.drive
    split
    · rfl
    case h_2 veh hbind =>
      split
      · rfl
      · rw [keys_considerLC]
        cases hv : d.vehicleId with
        | none => rw [hv] at hbind; simp [Option.bind] at hbind
        | some k =>
          rw [hv] at hbind
          simp only [Option.some_bind] at hbind
          have hid : veh.id = k := hids _ (assocGet_mem _ _ _ hbind)
          rw [hid]
          exact keys_assocSet_of_get _ _ veh _ hbind
  | simple d =>
    show (SimpleDriver.drive m d).vehicles.map Prod.fst = _
    unfold SimpleDriver.drive
    split
    · rfl
    case h_2 veh hbind =>
      split
      · rfl
      · cases hv : d.vehicleId with
        | none => rw [hv] at hbind; simp [Option.bind] at hbind
        | some k =>
          rw [hv] at hbind
          simp only [Option.some_bind] at hbind
          have hid : veh.id = k := hids _ (assocGet_mem _ _ _ hbind)
          rw [hid]
          exact keys_assocSet_of_get _ _ veh _ hbind

theorem idsOK_drive (msqrt : ℚ → ℚ) (m : Model) (d : Driver) (hids : idsOK m) :
    idsOK (Driver.drive msqrt m d) := by
  cases d with
  | idm d =>
    show idsOK (IDMDriver.drive msqrt m d)
    unfold IDMDriver.drive
    split
    · exact hids
    case h_2 veh hbind =>
      split
      · exact hids
      · apply idsOK_considerLC
        cases hv : d.vehicleId with
        | none => rw [hv] at hbind; simp [Option.bind] at hbind
        | some k =>
          rw [hv] at hbind
          simp only [Option.some_bind] at hbind
          have hid : veh.id = k := hids _ (assocGet_mem _ _ _ hbind)
          have hget2 : assocGet m.vehicles veh.id = some veh := by rw [hid]; exact hbind
          exact idsOK_setVehicle m veh.id veh _ hget2 rfl hids
  | simple d =>
    show idsOK (SimpleDriver.drive m d)
    unfold SimpleDriver.drive
    split
    · exact hids
    case h_2 veh hbind =>
      split
      · exact hids
      · cases hv : d.vehicleId with
        | none => rw [hv] at hbind; simp [Option.bind] at hbind
        | some k =>
          rw [hv] at hbind
          simp only [Option.some_bind] at hbind
          have hid : veh.id = k := hids _ (assocGet_mem _ _ _ hbind)
          have hget2 : assocGet m.vehicles veh.id = some veh := by rw [hid]; exact hbind
          exact idsOK_setVehicle m veh.id veh _ hget2 rfl hids

theorem behView_considerLC_protected (msqrt : ℚ → ℚ) (m : Model) (d : IDMDriver)
    (vid : Nat) (hids : idsOK m)
    (hprot : ∀ veh, assocGet m.vehicles vid = some veh →
       ∃ lane, assocGet m.lanes veh.laneId = some lane ∧
         lane.left = none ∧ lane.right = none) :
    (assocGet (IDMDriver.consider_lane_change msqrt m d).vehicles vid).map behView =
      (assocGet m.vehicles vid).map behView := by
  unfold IDMDriver.consider_lane_change
  split
  · rfl
  case h_2 vehx hbind =>
    split
    · rfl
    case isFalse hpx =>
      split
      · rfl
      case h_2 lane hlane =>
        cases hv : d.vehicleId with
        | none =>
          rw [hv] at hbind
          simp [Option.bind] at hbind
        | some k =>
          rw [hv] at hbind
          simp only [Option.some_bind] at hbind
          have hid : vehx.id = k := hids _ (assocGet_mem _ _ _ hbind)
          by_cases hk : k = vid
          · subst hk
            rcases hprot vehx hbind with ⟨lane2, hlane2, hleft, hright⟩
            rw [hlane] at hlane2
            have hl2 : lane = lane2 := Option.some.inj hlane2
            subst hl2
            rw [hleft, hright]
            rfl
          · have hne : vid ≠ vehx.id := by
              rw [hid]
              exact fun he => hk he.symm
            dsimp only
            split
            · rw [getVeh_startLC_other _ _ _ _ _ hne]
            · split
              · rw [getVeh_startLC_other _ _ _ _ _ hne]
              · rfl

theorem behView_IDMdrive_protected (msqrt : ℚ → ℚ) (m : Model) (d : IDMDriver)
    (vid : Nat) (hids : idsOK m)
    (hprot : ∀ veh, assocGet m.vehicles vid = some veh →
       ∃ lane, assocGet m.lanes veh.laneId = some lane ∧
         lane.left = none ∧ lane.right = none) :
    (assocGet (IDMDriver.drive msqrt m d).vehicles vid).map behView =
      (assocGet m.vehicles vid).map behView := by
  unfold IDMDriver.drive
  split
  · rfl
  case h_2 veh hbind =>
    split
    · rfl
    · cases hv : d.vehicleId with
      | none =>
        rw [hv] at hbind
        simp [Option.bind] at hbind
      | some k =>
        rw [hv] at hbind
        simp only [Option.some_bind] at hbind
        have hid : veh.id = k := hids _ (assocGet_mem _ _ _ hbind)
        have hget2 : assocGet m.vehicles veh.id = some veh := by rw [hid]; exact hbind
        have hview : ∀ k1, (assocGet (setVehicle m veh.id
            { veh with state := { veh.state with
                acceleration := IDMDriver.calculate_acceleration msqrt m d } }).vehicles k1).map behView =
            (assocGet m.vehicles k1).map behView := by
          intro k1
          exact getVeh_setVehicle_view behView m veh.id veh
            { veh with state := { veh.state with
                acceleration := IDMDriver.calculate_acceleration msqrt m d } } hget2 rfl k1
        dsimp only
        have hids2 : idsOK (setVehicle m veh.id
            { veh with state := { veh.state with
                acceleration := IDMDriver.calculate_acceleration msqrt m d } }) :=
          idsOK_setVehicle m veh.id veh
            { veh with state := { veh.state with
                acceleration := IDMDriver.calculate_acceleration msqrt m d } } hget2 rfl hids
        have hprot2 : ∀ veh2, assocGet (setVehicle m veh.id
            { veh with state := { veh.state with
                acceleration := IDMDriver.calculate_acceleration msqrt m d } }).vehicles vid = some veh2 →
            ∃ lane, assocGet (setVehicle m veh.id
              { veh with state := { veh.state with
                  acceleration := IDMDriver.calculate_acceleration msqrt m d } }).lanes veh2.laneId = some lane ∧
              lane.left = none ∧ lane.right = none := by
          intro veh2 hveh2
          have h1 := hview vid
          rw [hveh2] at h1
          cases hg0 : assocGet m.vehicles vid with
          | none =>
            rw [hg0] at h1
            exact absurd h1 (by simp)
          | some veh0 =>
            rw [hg0] at h1
            have hb : behView veh2 = behView veh0 := by simpa using h1
            have hlid : veh2.laneId = veh0.laneId := by
              simp only [behView, Prod.mk.injEq] at hb
              exact hb.2.1
            rcases hprot veh0 hg0 with ⟨lane, hlane, hleft, hright⟩
            refine ⟨lane, ?_, hleft, hright⟩
            rw [lanes_setVehicle, hlid]
            exact hlane
        exact (behView_considerLC_protected msqrt _ d vid hids2 hprot2).trans (hview vid)

theorem behView_drive_protected (msqrt : ℚ → ℚ) (m : Model) (dr : Driver)
    (vid : Nat) (hids : idsOK m)
    (hprot : ∀ veh, assocGet m.vehicles vid = some veh →
       ∃ lane, assocGet m.lanes veh.laneId = some lane ∧
         lane.left = none ∧ lane.right = none) :
    (assocGet (Driver.drive msqrt m dr).vehicles vid).map behView =
      (assocGet m.vehicles vid).map behView := by
  cases dr with
  | idm d => exact behView_IDMdrive_protected msqrt m d vid hids hprot
  | simple d =>
    show (assocGet (SimpleDriver.drive m d).vehicles vid).map behView = _
    unfold SimpleDriver.drive
    split
    · rfl
    case h_2 veh hbind =>
      split
      · rfl
      · cases hv : d.vehicleId with
        | none =>
          rw [hv] at hbind
          simp [Option.bind] at hbind
        | some k =>
          rw [hv] at hbind
          simp only [Option.some_bind] at hbind
          have hid : veh.id = k := hids _ (assocGet_mem _ _ _ hbind)
          have hget2 : assocGet m.vehicles veh.id = some veh := by rw [hid]; exact hbind
          exact getVeh_setVehicle_view behView m veh.id veh
            { veh with state := { veh.state with acceleration :=
                (if 0 < d.desired_speed - veh.state.velocity then
                  min d.max_acceleration (d.desired_speed - veh.state.velocity)
                 else max (-d.max_deceleration) (d.desired_speed - veh.state.velocity)) } }
            hget2 rfl vid


theorem behView_of_noSurrView (o1 o2 : Option Vehicle)
    (h : o1.map noSurrView = o2.map noSurrView) : o1.map behView = o2.map behView := by
  cases o1 with
  | none =>
    cases o2 with
    | none => rfl
    | some w => simp [noSurrView] at h
  | some v =>
    cases o2 with
    | none => simp [noSurrView] at h
    | some w =>
      have h2 : noSurrView v = noSurrView w := by simpa using h
      simp only [noSurrView, Prod.mk.injEq] at h2
      obtain ⟨h1, h2a, h3, h4, h5, h6, h7, h8, h9⟩ := h2
      simp [behView, h1, h2a, h3, h4, h5, h6, h7, h8, h9]

/-- hprot_transport moves the protected-lane hypothesis across a model
transformation that preserves the lanes registry and the protected
vehicle record up to behView. -/
theorem hprot_transport (m m1 : Model) (vidP : Nat)
    (hlanes : m1.lanes = m.lanes)
    (hview : (assocGet m1.vehicles vidP).map behView =
      (assocGet m.vehicles vidP).map behView)
    (hprot : ∀ veh, assocGet m.vehicles vidP = some veh →
       ∃ lane, assocGet m.lanes veh.laneId = some lane ∧
         lane.left = none ∧ lane.right = none) :
    ∀ veh, assocGet m1.vehicles vidP = some veh →
      ∃ lane, assocGet m1.lanes veh.laneId = some lane ∧
        lane.left = none ∧ lane.right = none := by
  intro veh2 hveh2
  rw [hveh2] at hview
  cases hg0 : assocGet m.vehicles vidP with
  | none =>
    rw [hg0] at hview
    exact absurd hview (by simp)
  | some veh0 =>
    rw [hg0] at hview
    have hb : behView veh2 = behView veh0 := by simpa using hview
    have hlid : veh2.laneId = veh0.laneId := by
      simp only [behView, Prod.mk.injEq] at hb
      exact hb.2.1
    rcases hprot veh0 hg0 with ⟨lane, hlane, hleft, hright⟩
    refine ⟨lane, ?_, hleft, hright⟩
    rw [hlanes, hlid]
    exact hlane

/-- Combined invariants of update_vehicle_surroundings: it only rewrites
surrounding caches of existing vehicles. -/
theorem updSurr_inv (m : Model) (lid : Nat) :
    (Lane.update_vehicle_surroundings m lid).lanes = m.lanes ∧
    (Lane.update_vehicle_surroundings m lid).drivers = m.drivers ∧
    adminView (Lane.update_vehicle_surroundings m lid) = adminView m ∧
    (Lane.update_vehicle_surroundings m lid).stats = m.stats ∧
    (Lane.update_vehicle_surroundings m lid).vehicles.map Prod.fst =
      m.vehicles.map Prod.fst ∧
    (idsOK m → idsOK (Lane.update_vehicle_surroundings m lid)) ∧
    (∀ k, (assocGet (Lane.update_vehicle_surroundings m lid).vehicles k).map noSurrView =
       (assocGet m.vehicles k).map noSurrView) := by
  unfold Lane.update_vehicle_surroundings
  split
  · exact ⟨rfl, rfl, rfl, rfl, rfl, fun h => h, fun _ => rfl⟩
  case h_2 lane hlane =>
    apply foldl_preserve
      (fun m1 =>
        m1.lanes = m.lanes ∧ m1.drivers = m.drivers ∧
        adminView m1 = adminView m ∧ m1.stats = m.stats ∧
        m1.vehicles.map Prod.fst = m.vehicles.map Prod.fst ∧
        (idsOK m → idsOK m1) ∧
        (∀ k, (assocGet m1.vehicles k).map noSurrView =
           (assocGet m.vehicles k).map noSurrView))
    · exact ⟨rfl, rfl, rfl, rfl, rfl, fun h => h, fun _ => rfl⟩
    · intro m1 vid h
      obtain ⟨hl, hd, ha, hs, hk, hi, hv⟩ := h
      dsimp only
      split
      · exact ⟨hl, hd, ha, hs, hk, hi, hv⟩
      case h_2 veh hget =>
        refine ⟨hl, hd, ha, hs, ?_, ?_, ?_⟩
        · rw [show (setVehicle m1 vid (writeSurroundings veh _)).vehicles =
                assocSet m1.vehicles vid (writeSurroundings veh _) from rfl,
              keys_assocSet_of_get _ _ veh _ hget]
          exact hk
        · intro hm
          exact idsOK_setVehicle m1 vid veh _ hget rfl (hi hm)
        · intro k
          exact (getVeh_setVehicle_view noSurrView m1 vid veh
            (writeSurroundings veh
              (Lane.get_neighbors m1 ((assocGet m1.lanes lid).getD lane) veh.state.x))
            hget rfl k).trans (hv k)

theorem phaseSurr_inv (m : Model) :
    (phaseSurroundings m).lanes = m.lanes ∧
    (phaseSurroundings m).drivers = m.drivers ∧
    adminView (phaseSurroundings m) = adminView m ∧
    (phaseSurroundings m).stats = m.stats ∧
    (phaseSurroundings m).vehicles.map Prod.fst = m.vehicles.map Prod.fst ∧
    (idsOK m → idsOK (phaseSurroundings m)) ∧
    (∀ k, (assocGet (phaseSurroundings m).vehicles k).map noSurrView =
       (assocGet m.vehicles k).map noSurrView) := by
  unfold phaseSurroundings
  apply foldl_preserve
    (fun m1 =>
      m1.lanes = m.lanes ∧ m1.drivers = m.drivers ∧
      adminView m1 = adminView m ∧ m1.stats = m.stats ∧
      m1.vehicles.map Prod.fst = m.vehicles.map Prod.fst ∧
      (idsOK m → idsOK m1) ∧
      (∀ k, (assocGet m1.vehicles k).map noSurrView =
         (assocGet m.vehicles k).map noSurrView))
  · exact ⟨rfl, rfl, rfl, rfl, rfl, fun h => h, fun _ => rfl⟩
  · intro m1 lid h
    obtain ⟨hl, hd, ha, hs, hk, hi, hv⟩ := h
    obtain ⟨gl, gd, ga, gs, gk, gi, gv⟩ := updSurr_inv m1 lid
    exact ⟨gl.trans hl, gd.trans hd, ga.trans ha, gs.trans hs, gk.trans hk,
      fun hm => gi (hi hm), fun k => (gv k).trans (hv k)⟩

theorem phaseDrive_inv (msqrt : ℚ → ℚ) (m : Model) (vidP : Nat) (hids : idsOK m)
    (hprot : ∀ veh, assocGet m.vehicles vidP = some veh →
       ∃ lane, assocGet m.lanes veh.laneId = some lane ∧
         lane.left = none ∧ lane.right = none) :
    (phaseDrive msqrt m).lanes = m.lanes ∧
    (phaseDrive msqrt m).drivers = m.drivers ∧
    adminView (phaseDrive msqrt m) = adminView m ∧
    (phaseDrive msqrt m).vehicles.map Prod.fst = m.vehicles.map Prod.fst ∧
    idsOK (phaseDrive msqrt m) ∧
    (assocGet (phaseDrive msqrt m).vehicles vidP).map behView =
      (assocGet m.vehicles vidP).map behView := by
  unfold phaseDrive
  apply foldl_preserve
    (fun m1 =>
      m1.lanes = m.lanes ∧ m1.drivers = m.drivers ∧
      adminView m1 = adminView m ∧
      m1.vehicles.map Prod.fst = m.vehicles.map Prod.fst ∧
      idsOK m1 ∧
      (assocGet m1.vehicles vidP).map behView = (assocGet m.vehicles vidP).map behView)
  · exact ⟨rfl, rfl, rfl, rfl, hids, rfl⟩
  · intro m1 did h
    obtain ⟨hl, hd, ha, hk, hi, hv⟩ := h
    split
    case h_2 => exact ⟨hl, hd, ha, hk, hi, hv⟩
    case h_1 d hgetd =>
      refine ⟨(lanes_drive msqrt m1 d).trans hl, (drivers_drive msqrt m1 d).trans hd,
        (adminView_drive msqrt m1 d).trans ha, (keys_drive msqrt m1 d hi).trans hk,
        idsOK_drive msqrt m1 d hi, ?_⟩
      have hprot1 := hprot_transport m m1 vidP hl hv hprot
      exact (behView_drive_protected msqrt m1 d vidP hi hprot1).trans hv

theorem adminView_phaseMove (m : Model) (dt : ℚ) :
    adminView (phaseMove m dt) = adminView m := by
  unfold phaseMove
  apply foldl_preserve (fun m1 => adminView m1 = adminView m)
  · rfl
  · intro m1 vid h
    exact (adminView_moveAndCheck m1 dt vid).trans h

theorem vehicles_updateStats (m : Model) :
    (Model.update_statistics m).vehicles = m.vehicles := rfl

theorem lanes_updateStats (m : Model) :
    (Model.update_statistics m).lanes = m.lanes := rfl

theorem adminView_updateStats (m : Model) :
    adminView (Model.update_statistics m) = adminView m := rfl

theorem adminView_phaseSurroundings (m : Model) :
    adminView (phaseSurroundings m) = adminView m :=
  (phaseSurr_inv m).2.2.1

theorem adminView_phaseDrive (msqrt : ℚ → ℚ) (m : Model) :
    adminView (phaseDrive msqrt m) = adminView m := by
  unfold phaseDrive
  apply foldl_preserve (fun m1 => adminView m1 = adminView m)
  · rfl
  · intro m1 did h
    split
    · exact (adminView_drive msqrt m1 _).trans h
    · exact h

/-- The administrative fields after one tick: the clock advances by dt
and nothing else in adminView changes. -/
theorem adminView_update_simulation (msqrt : ℚ → ℚ) (m : Model) (dt : ℚ) :
    adminView (Model.update_simulation msqrt m dt) =
      (m.state, m.settings, m.current_time + dt, m.stop_simulation_flag,
       m.next_vehicle_id, m.next_driver_id, m.routes) := by
  unfold Model.update_simulation
  dsimp only
  rw [adminView_updateStats, adminView_phaseMove, adminView_phaseDrive,
      adminView_phaseSurroundings]
  rfl

/-! Claim theorems. -/

theorem advance_route_lane_sequence (r : Route) :
    (Route.advance_route r).lane_sequence = r.lane_sequence := by
  unfold Route.advance_route
  split <;> rfl

theorem advance_route_lt (r : Route)
    (h : r.current_index < r.lane_sequence.length) :
    (Route.advance_route r).current_index < (Route.advance_route r).lane_sequence.length := by
  unfold Route.advance_route
  split
  case isTrue hlt =>
    simp only
    omega
  case isFalse => exact h

theorem iterate_advance_lt (r : Route) (n : Nat)
    (h : r.current_index < r.lane_sequence.length) :
    (Route.advance_route^[n] r).current_index <
      (Route.advance_route^[n] r).lane_sequence.length := by
  induction n generalizing r with
  | zero => exact h
  | succ k ih =>
    rw [Function.iterate_succ_apply]
    exact ih _ (advance_route_lt r h)

/-- C6 counterexample: on the single-lane route [5], advance_route is
the identity (the cursor is capped at length − 1 = 0), so no number of
advance_route calls ever makes is_route_complete true, refuting the
completion part of the claim. -/
theorem c6_counterexample :
    Route.advance_route routeC6 = routeC6 ∧
    ¬ ∃ n : Nat, Route.is_route_complete (Route.advance_route^[n] routeC6) = true := by
  constructor
  · decide
  · rintro ⟨n, hn⟩
    have h := iterate_advance_lt routeC6 n (by decide)
    unfold Route.is_route_complete at hn
    simp only [decide_eq_true_eq] at hn
    omega

/-- C6 amended: the route cursor never decreases under advance_route and
is_route_complete returns true exactly when the cursor has reached the
sequence length; but advance_route caps the cursor at length − 1, so
from any state with cursor below the length (every reachable state of a
non-empty route) is_route_complete stays false after any number of
advance_route calls. For the empty sequence it is true from the start. -/
theorem c6_route_cursor (r : Route) (n : Nat) :
    r.current_index ≤ (Route.advance_route r).current_index ∧
    (Route.is_route_complete r = true ↔ r.lane_sequence.length ≤ r.current_index) ∧
    (r.current_index < r.lane_sequence.length →
      Route.is_route_complete (Route.advance_route^[n] r) = false) ∧
    (r.lane_sequence = [] → Route.is_route_complete r = true) := by
  refine ⟨?_, ?_, ?_, ?_⟩
  · unfold Route.advance_route
    split
    · simp only
      omega
    · exact Nat.le_refl _
  · unfold Route.is_route_complete
    simp
  · intro h
    have h1 := iterate_advance_lt r n h
    unfold Route.is_route_complete
    simp only [decide_eq_false_iff_not]
    omega
  · intro h
    unfold Route.is_route_complete
    simp [h]

theorem c6_route_cursor_witness :
    Route.is_route_complete (Route.advance_route^[3] routeC6w) = false :=
  (c6_route_cursor routeC6w 3).2.2.1 (by decide)

/-- C7: step_simulation from STOPPED or PAUSED runs exactly one tick,
advancing the clock by exactly the configured time_step, and settles
into PAUSED; called while RUNNING it changes nothing; and
start_simulation while already RUNNING changes nothing. -/
theorem c7_step_and_start (msqrt : ℚ → ℚ) (m : Model) :
    ((m.state = SimulationState.STOPPED ∨ m.state = SimulationState.PAUSED) →
      (Model.step_simulation msqrt m).current_time =
        m.current_time + m.settings.time_step ∧
      (Model.step_simulation msqrt m).state = SimulationState.PAUSED) ∧
    (m.state = SimulationState.RUNNING → Model.step_simulation msqrt m = m) ∧
    (m.state = SimulationState.RUNNING → Model.start_simulation m = m) := by
  refine ⟨?_, ?_, ?_⟩
  · intro h
    have hadmin := adminView_update_simulation msqrt m m.settings.time_step
    simp only [adminView, Prod.mk.injEq] at hadmin
    unfold Model.step_simulation
    rw [if_pos h]
    exact ⟨hadmin.2.2.1, rfl⟩
  · intro h
    unfold Model.step_simulation
    rw [if_neg]
    rw [h]
    rintro (hc | hc) <;> cases hc
  · intro h
    unfold Model.start_simulation
    rw [if_pos h]

theorem c7_witness :
    (Model.step_simulation msqrtW { state := SimulationState.PAUSED }).current_time = 1/10 ∧
    (Model.step_simulation msqrtW { state := SimulationState.PAUSED }).state =
      SimulationState.PAUSED ∧
    Model.step_simulation msqrtW { state := SimulationState.RUNNING } =
      { state := SimulationState.RUNNING } ∧
    Model.start_simulation { state := SimulationState.RUNNING } =
      { state := SimulationState.RUNNING } := by
  have h1 := (c7_step_and_start msqrtW { state := SimulationState.PAUSED }).1 (Or.inr rfl)
  have h2 := (c7_step_and_start msqrtW { state := SimulationState.RUNNING }).2.1 rfl
  have h3 := (c7_step_and_start msqrtW { state := SimulationState.RUNNING }).2.2 rfl
  refine ⟨?_, h1.2, h2, h3⟩
  rw [h1.1]
  norm_num

theorem foldl_min_spec (key : Nat → ℚ) (vs : List Nat) (v : Nat) :
    (vs.foldl (fun best w => if key w < key best then w else best) v) ∈ v :: vs ∧
    (∀ u ∈ v :: vs,
      key (vs.foldl (fun best w => if key w < key best then w else best) v) ≤ key u) := by
  induction vs generalizing v with
  | nil => simp
  | cons w ws ih =>
    rw [List.foldl_cons]
    obtain ⟨ihm, ihle⟩ := ih (if key w < key v then w else v)
    constructor
    · rcases List.mem_cons.mp ihm with h | h
      · rw [h]
        split
        · exact List.mem_cons_of_mem _ (List.mem_cons_self _ _)
        · exact List.mem_cons_self _ _
      · exact List.mem_cons_of_mem _ (List.mem_cons_of_mem _ h)
    · intro u hu
      by_cases hlt : key w < key v
      · rw [if_pos hlt] at ihle ⊢
        rcases List.mem_cons.mp hu with h | h
        · subst h
          exact le_trans (ihle _ (List.mem_cons_self _ _)) (le_of_lt hlt)
        rcases List.mem_cons.mp h with h2 | h2
        · subst h2
          exact ihle _ (List.mem_cons_self _ _)
        · exact ihle _ (List.mem_cons_of_mem _ h2)
      · rw [if_neg hlt] at ihle ⊢
        rcases List.mem_cons.mp hu with h | h
        · subst h
          exact ihle _ (List.mem_cons_self _ _)
        rcases List.mem_cons.mp h with h2 | h2
        · subst h2
          exact le_trans (ihle _ (List.mem_cons_self _ _)) (not_lt.mp hlt)
        · exact ihle _ (List.mem_cons_of_mem _ h2)

theorem foldl_max_spec (key : Nat → ℚ) (vs : List Nat) (v : Nat) :
    (vs.foldl (fun best w => if key best < key w then w else best) v) ∈ v :: vs ∧
    (∀ u ∈ v :: vs,
      key u ≤ key (vs.foldl (fun best w => if key best < key w then w else best) v)) := by
  induction vs generalizing v with
  | nil => simp
  | cons w ws ih =>
    rw [List.foldl_cons]
    obtain ⟨ihm, ihle⟩ := ih (if key v < key w then w else v)
    constructor
    · rcases List.mem_cons.mp ihm with h | h
      · rw [h]
        split
        · exact List.mem_cons_of_mem _ (List.mem_cons_self _ _)
        · exact List.mem_cons_self _ _
      · exact List.mem_cons_of_mem _ (List.mem_cons_of_mem _ h)
    · intro u hu
      by_cases hlt : key v < key w
      · rw [if_pos hlt] at ihle ⊢
        rcases List.mem_cons.mp hu with h | h
        · subst h
          exact le_trans (le_of_lt hlt) (ihle _ (List.mem_cons_self _ _))
        rcases List.mem_cons.mp h with h2 | h2
        · subst h2
          exact ihle _ (List.mem_cons_self _ _)
        · exact ihle _ (List.mem_cons_of_mem _ h2)
      · rw [if_neg hlt] at ihle ⊢
        rcases List.mem_cons.mp hu with h | h
        · subst h
          exact ihle _ (List.mem_cons_self _ _)
        rcases List.mem_cons.mp h with h2 | h2
        · subst h2
          exact le_trans (not_lt.mp hlt) (ihle _ (List.mem_cons_self _ _))
        · exact ihle _ (List.mem_cons_of_mem _ h2)

theorem pyMinBy_spec (key : Nat → ℚ) (l : List Nat) (v : Nat)
    (h : pyMinBy key l = some v) : v ∈ l ∧ ∀ u ∈ l, key v ≤ key u := by
  cases l with
  | nil => simp [pyMinBy] at h
  | cons a vs =>
    simp only [pyMinBy, Option.some.injEq] at h
    subst h
    exact foldl_min_spec key vs a

theorem pyMaxBy_spec (key : Nat → ℚ) (l : List Nat) (v : Nat)
    (h : pyMaxBy key l = some v) : v ∈ l ∧ ∀ u ∈ l, key u ≤ key v := by
  cases l with
  | nil => simp [pyMaxBy] at h
  | cons a vs =>
    simp only [pyMaxBy, Option.some.injEq] at h
    subst h
    exact foldl_max_spec key vs a

theorem pyMinBy_eq_none (key : Nat → ℚ) (l : List Nat) :
    pyMinBy key l = none ↔ l = [] := by
  cases l <;> simp [pyMinBy]

theorem pyMaxBy_eq_none (key : Nat → ℚ) (l : List Nat) :
    pyMaxBy key l = none ↔ l = [] := by
  cases l <;> simp [pyMaxBy]

/-- C9: get_leading_vehicle returns a vehicle strictly ahead of the
given position with minimal x among those, and none exactly when no
vehicle is strictly ahead; get_following_vehicle symmetrically returns a
vehicle strictly behind with maximal x; both for an arbitrary ordering
of the lane's internal vehicle list. -/
theorem c9_spatial_queries (m : Model) (lane : Lane) (pos : ℚ) :
    (∀ v, Lane.get_leading_vehicle m lane pos = some v →
       v ∈ lane.vehicles ∧ pos < xOf m v ∧
       ∀ u ∈ lane.vehicles, pos < xOf m u → xOf m v ≤ xOf m u) ∧
    (Lane.get_leading_vehicle m lane pos = none →
       ∀ u ∈ lane.vehicles, xOf m u ≤ pos) ∧
    (∀ v, Lane.get_following_vehicle m lane pos = some v →
       v ∈ lane.vehicles ∧ xOf m v < pos ∧
       ∀ u ∈ lane.vehicles, xOf m u < pos → xOf m u ≤ xOf m v) ∧
    (Lane.get_following_vehicle m lane pos = none →
       ∀ u ∈ lane.vehicles, pos ≤ xOf m u) := by
  refine ⟨?_, ?_, ?_, ?_⟩
  · intro v hv
    obtain ⟨hmem, hmin⟩ := pyMinBy_spec (xOf m) _ v hv
    rw [List.mem_filter] at hmem
    refine ⟨hmem.1, by simpa using hmem.2, ?_⟩
    intro u hu hlt
    exact hmin u (List.mem_filter.mpr ⟨hu, by simpa using hlt⟩)
  · intro hn u hu
    rw [Lane.get_leading_vehicle, pyMinBy_eq_none, List.filter_eq_nil_iff] at hn
    have := hn u hu
    simp only [decide_eq_true_eq] at this
    exact not_lt.mp this
  · intro v hv
    obtain ⟨hmem, hmax⟩ := pyMaxBy_spec (xOf m) _ v hv
    rw [List.mem_filter] at hmem
    refine ⟨hmem.1, by simpa using hmem.2, ?_⟩
    intro u hu hlt
    exact hmax u (List.mem_filter.mpr ⟨hu, by simpa using hlt⟩)
  · intro hn u hu
    rw [Lane.get_following_vehicle, pyMaxBy_eq_none, List.filter_eq_nil_iff] at hn
    have := hn u hu
    simp only [decide_eq_true_eq] at this
    exact not_lt.mp this

theorem c9_witness :
    (3 : ℚ) < xOf mC9w 1 ∧ xOf mC9w 1 ≤ xOf mC9w 2 := by
  have h := (c9_spatial_queries mC9w laneC9w 3).1 1 (by decide)
  exact ⟨h.2.1, h.2.2 2 (by decide) (by decide)⟩

theorem sdictGet_pynone_of_enc_keys (d : List (PyKey × Option Nat))
    (h : ∀ kv ∈ d, ∃ e, kv.1 = PyKey.enc e) : sdictGet d PyKey.pynone = none := by
  induction d with
  | nil => rfl
  | cons kv rest ih =>
    obtain ⟨e, he⟩ := h kv (List.mem_cons_self _ _)
    unfold sdictGet
    rw [if_neg (by rw [he]; simp)]
    exact ih (fun kv1 h1 => h kv1 (List.mem_cons_of_mem _ h1))

theorem sdictHasKey_str_of_enc_keys (d : List (PyKey × Option Nat)) (str1 : String)
    (h : ∀ kv ∈ d, ∃ e, kv.1 = PyKey.enc e) :
    sdictHasKey d (PyKey.str str1) = false := by
  unfold sdictHasKey
  rw [List.any_eq_false]
  intro kv hkv
  obtain ⟨e, he⟩ := h kv hkv
  rw [he]
  simp

/-- front_leader always returns none on a surrounding dict whose keys
are all Enclosure members, as built by Vehicle.__init__ and only ever
rewritten with Enclosure keys by update_vehicle_surroundings: the lookup
tests the string key FRONT, which is never present, and then looks up
the python None key, which is never present either. -/
theorem front_leader_none (veh : Vehicle)
    (h : ∀ kv ∈ veh.surrounding, ∃ e, kv.1 = PyKey.enc e) :
    IDMDriver.front_leader veh = none := by
  unfold IDMDriver.front_leader
  rw [sdictHasKey_str_of_enc_keys _ _ h]
  simp only [Bool.false_eq_true, if_false]
  exact sdictGet_pynone_of_enc_keys _ h

/-- C1 (code defect): at the failing input mC1 — an uncrashed ego
vehicle with velocity 0 whose FRONT slot caches a stopped leader at net
gap 1 m — drive() applies the free-flow acceleration 2 m/s² because the
leader lookup in calculate_acceleration indexes the Enclosure-keyed
surrounding dict with the string "FRONT" and then with python None and
therefore always yields None, while the specification formula, for any
value of sqrt(a_max·b), prescribes the comfortable-deceleration floor
−3 m/s² for the same state. -/
theorem c1_idm_ignores_cached_front_leader :
    sdictGet vehC1.surrounding (PyKey.enc Enclosure.FRONT) = some 2 ∧
    vehC1.state.crashed = false ∧
    IDMDriver.front_leader vehC1 = none ∧
    ((assocGet (IDMDriver.drive msqrtW mC1 drvC1).vehicles 1).map
      (fun v => v.state.acceleration)) = some 2 ∧
    (∀ s : ℚ, specIDMAcceleration s 0 (3333/100) (3/2) 2 2 3 0 1 = -3) ∧
    (2 : ℚ) ≠ -3 := by
  refine ⟨by decide, by decide, by decide, by decide, ?_, by norm_num⟩
  intro s
  unfold specIDMAcceleration
  norm_num
theorem map_eq_some_extract {β : Type} (view : Vehicle → β) (o : Option Vehicle)
    (b : β) (h : o.map view = some b) : ∃ v, o = some v ∧ view v = b := by
  cases o with
  | none => simp at h
  | some v => exact ⟨v, rfl, by simpa using h⟩

theorem kinView_getVeh_moveLateral (m : Model) (vid : Nat) (veh : Vehicle) (dt : ℚ)
    (hget : assocGet m.vehicles vid = some veh) (k : Nat) :
    (assocGet (moveLateral m vid veh dt).vehicles k).map kinView =
      (assocGet m.vehicles k).map kinView := by
  unfold moveLateral
  dsimp only
  have hset : ∀ k1, (assocGet (setVehicle m vid
      { veh with state := { veh.state with
          lane_change_progress := veh.state.lane_change_progress + veh.dy * dt } }).vehicles k1).map kinView =
      (assocGet m.vehicles k1).map kinView := fun k1 =>
    getVeh_setVehicle_view kinView m vid veh
      { veh with state := { veh.state with
          lane_change_progress := veh.state.lane_change_progress + veh.dy * dt } } hget rfl k1
  split
  · exact (kinView_getVeh_endLC _ _ _).trans (hset k)
  · exact hset k

/-- moveIntegrate on a present vehicle: the exact field updates of the
longitudinal step of move. -/
theorem moveIntegrate_spec (m1 : Model) (vid : Nat) (dt : ℚ) (veh2 : Vehicle)
    (hget : assocGet m1.vehicles vid = some veh2) :
    ∃ veh3, assocGet (moveIntegrate m1 vid dt).vehicles vid = some veh3 ∧
      veh3.state.velocity = max 0 (veh2.state.velocity + dt * veh2.state.acceleration) ∧
      veh3.state.x = veh2.state.x +
        max 0 (dt * veh2.state.velocity + 1/2 * veh2.state.acceleration * dt * dt) ∧
      veh3.state.crashed = veh2.state.crashed ∧
      veh3.state.acceleration = veh2.state.acceleration ∧
      veh3.state.lane_change_progress = veh2.state.lane_change_progress ∧
      veh3.laneId = veh2.laneId ∧ veh3.lc_direction = veh2.lc_direction ∧
      veh3.dy = veh2.dy := by
  unfold moveIntegrate
  rw [hget]
  exact ⟨_, assocGet_assocSet_self _ _ _, rfl, rfl, rfl, rfl, rfl, rfl, rfl, rfl⟩

/-- C5: for dt ≥ 0 and a vehicle whose velocity respects the invariant,
move never produces a negative velocity and never decreases the
longitudinal position; crash zeroes velocity and acceleration and sets
the crashed flag; and move on a crashed vehicle changes nothing at all. -/
theorem c5_motion_invariants (m : Model) (vid : Nat) (veh : Vehicle) (dt : ℚ)
    (hveh : assocGet m.vehicles vid = some veh) (hdt : 0 ≤ dt)
    (hvel : 0 ≤ veh.state.velocity) :
    (∃ veh1, assocGet (Vehicle.move m vid dt).vehicles vid = some veh1 ∧
       0 ≤ veh1.state.velocity ∧ veh.state.x ≤ veh1.state.x) ∧
    (∃ vehc, assocGet (Vehicle.crash m vid).vehicles vid = some vehc ∧
       vehc.state.crashed = true ∧ vehc.state.velocity = 0 ∧
       vehc.state.acceleration = 0) ∧
    (veh.state.crashed = true → Vehicle.move m vid dt = m) := by
  refine ⟨?_, ?_, ?_⟩
  · unfold Vehicle.move
    rw [hveh]
    dsimp only
    by_cases hc : veh.state.crashed
    · rw [if_pos hc]
      exact ⟨veh, hveh, hvel, le_refl _⟩
    · rw [if_neg hc]
      have hkin : (assocGet (if veh.dy ≠ 0 then moveLateral m vid veh dt else m).vehicles vid).map kinView =
          (assocGet m.vehicles vid).map kinView := by
        split
        · exact kinView_getVeh_moveLateral m vid veh dt hveh vid
        · rfl
      rw [hveh] at hkin
      obtain ⟨veh2, hget2, hkin2⟩ := map_eq_some_extract kinView _ _ hkin
      obtain ⟨veh3, hget3, hv3, hx3, _⟩ := moveIntegrate_spec _ vid dt veh2 hget2
      refine ⟨veh3, hget3, ?_, ?_⟩
      · rw [hv3]
        exact le_max_left _ _
      · rw [hx3]
        have hx2 : veh2.state.x = veh.state.x := by
          simp only [kinView, Prod.mk.injEq] at hkin2
          exact hkin2.1
        rw [hx2]
        exact le_add_of_nonneg_right (le_max_left _ _)
  · unfold Vehicle.crash
    rw [hveh]
    dsimp only
    exact ⟨_, assocGet_assocSet_self _ _ _, rfl, rfl, rfl⟩
  · intro hc
    unfold Vehicle.move
    rw [hveh]
    dsimp only
    rw [if_pos hc]

theorem c5_witness :
    (assocGet (Vehicle.move mC5w 1 1).vehicles 1).isSome = true ∧
    (assocGet (Vehicle.crash mC5w 1).vehicles 1).map (fun v => v.state.crashed) =
      some true := by
  have h := c5_motion_invariants mC5w 1 vehC5w 1 (by decide) (by decide) (by decide)
  obtain ⟨⟨veh1, h1, _, _⟩, ⟨vehc, hc1, hcc, _, _⟩, _⟩ := h
  constructor
  · rw [h1]
    rfl
  · rw [hc1]
    simp [hcc]

theorem insertByX_perm (m : Model) (v : Nat) (l : List Nat) :
    (insertByX m v l).Perm (v :: l) := by
  induction l with
  | nil => exact List.Perm.refl _
  | cons w ws ih =>
    unfold insertByX
    split
    · exact List.Perm.refl _
    · exact (List.Perm.cons w ih).trans (List.Perm.swap v w ws)

theorem sortByX_perm (m : Model) (l : List Nat) : (sortByX m l).Perm l := by
  induction l with
  | nil => exact List.Perm.refl _
  | cons v vs ih =>
    exact (insertByX_perm m v (sortByX m vs)).trans (List.Perm.cons v ih)

theorem mem_sortByX (m : Model) (l : List Nat) (a : Nat) :
    a ∈ sortByX m l ↔ a ∈ l :=
  (sortByX_perm m l).mem_iff

theorem count_sortByX (m : Model) (l : List Nat) (a : Nat) :
    (sortByX m l).count a = l.count a :=
  (sortByX_perm m l).count_eq a

theorem pairwise_insertByX (m : Model) (v : Nat) (l : List Nat)
    (h : l.Pairwise (fun a b => xOf m a ≤ xOf m b)) :
    (insertByX m v l).Pairwise (fun a b => xOf m a ≤ xOf m b) := by
  induction l with
  | nil => simp [insertByX]
  | cons w ws ih =>
    unfold insertByX
    rcases List.pairwise_cons.mp h with ⟨hw, hws⟩
    split
    case isTrue hle =>
      refine List.pairwise_cons.mpr ⟨?_, h⟩
      intro u hu
      rcases List.mem_cons.mp hu with h1 | h1
      · rw [h1]
        exact hle
      · exact le_trans hle (hw u h1)
    case isFalse hgt =>
      refine List.pairwise_cons.mpr ⟨?_, ih hws⟩
      intro u hu
      rcases List.mem_cons.mp ((insertByX_perm m v ws).mem_iff.mp hu) with h1 | h1
      · rw [h1]
        exact le_of_lt (not_le.mp hgt)
      · exact hw u h1

theorem pairwise_sortByX (m : Model) (l : List Nat) :
    (sortByX m l).Pairwise (fun a b => xOf m a ≤ xOf m b) := by
  induction l with
  | nil => simp [sortByX]
  | cons v vs ih => exact pairwise_insertByX m v _ ih

theorem get_id_create_driver (driver_id : Nat) (dtp : DriverType) :
    (create_driver driver_id dtp).get_id = driver_id := by
  unfold create_driver
  split
  case isTrue h =>
    subst h
    rfl
  · rfl

theorem get_id_set_vehicle (d : Driver) (v : Nat) :
    (d.set_vehicle v).get_id = d.get_id := by
  cases d <;> rfl

theorem get_id_set_route (d : Driver) (r : Route) :
    (d.set_route r).get_id = d.get_id := by
  cases d <;> rfl

theorem vehicleId_set_vehicle (d : Driver) (v : Nat) :
    (d.set_vehicle v).vehicleId = some v := by
  cases d <;> rfl

theorem vehicleId_set_route (d : Driver) (r : Route) :
    (d.set_route r).vehicleId = d.vehicleId := by
  cases d <;> rfl

theorem mkVehicle_id (i l : Nat) (x : ℚ) : (mkVehicle i l x).id = i := rfl

theorem mkVehicle_laneId (i l : Nat) (x : ℚ) : (mkVehicle i l x).laneId = l := rfl

theorem getVeh_laneAdd_fields (m : Model) (lid vid : Nat) (veh : Vehicle)
    (hget : assocGet m.vehicles vid = some veh) :
    assocGet (Lane.add_vehicle m lid vid).vehicles vid = some veh ∨
    assocGet (Lane.add_vehicle m lid vid).vehicles vid =
      some { veh with laneId := lid } := by
  unfold Lane.add_vehicle
  split
  · exact Or.inl hget
  · split
    · exact Or.inl hget
    · dsimp only
      split
      case h_1 hnone =>
        rw [vehicles_setLane, hget] at hnone
        cases hnone
      case h_2 veh2 hsome =>
        rw [vehicles_setLane, hget] at hsome
        rw [Option.some.inj hsome]
        exact Or.inr (assocGet_assocSet_self _ _ _)

/-- Lane.add_vehicle leaves the next_vehicle_id counter unchanged. -/
theorem next_vid_laneAdd (m : Model) (lid vid : Nat) :
    (Lane.add_vehicle m lid vid).next_vehicle_id = m.next_vehicle_id := by
  have hA := adminView_laneAdd m lid vid
  simp only [adminView, Prod.mk.injEq] at hA
  exact hA.2.2.2.2.1

/-- Lane.add_vehicle leaves the next_driver_id counter unchanged. -/
theorem next_did_laneAdd (m : Model) (lid vid : Nat) :
    (Lane.add_vehicle m lid vid).next_driver_id = m.next_driver_id := by
  have hA := adminView_laneAdd m lid vid
  simp only [adminView, Prod.mk.injEq] at hA
  exact hA.2.2.2.2.2.1

/-- C8: add_vehicle on an unknown lane id returns none and leaves the
model bit-for-bit unchanged; on a registered lane it returns the fresh
vehicle id, registers a vehicle already wired to its driver (and the
driver back to it), puts the vehicle on the lane, and bumps the id
counters and the vehicle statistics. -/
theorem c8_add_vehicle (m : Model) (lane_id : Nat) (dtp : DriverType) (pos : ℚ)
    (route : Option Route) :
    (assocGet m.lanes lane_id = none →
      Model.add_vehicle m lane_id dtp pos route = (none, m)) ∧
    (∀ lane, assocGet m.lanes lane_id = some lane →
      (Model.add_vehicle m lane_id dtp pos route).1 = some m.next_vehicle_id ∧
      (∃ veh, assocGet (Model.add_vehicle m lane_id dtp pos route).2.vehicles
          m.next_vehicle_id = some veh ∧
        veh.driverId = some m.next_driver_id ∧ veh.laneId = lane_id) ∧
      (∃ drv, assocGet (Model.add_vehicle m lane_id dtp pos route).2.drivers
          m.next_driver_id = some drv ∧
        drv.vehicleId = some m.next_vehicle_id) ∧
      (∀ lane2, assocGet (Model.add_vehicle m lane_id dtp pos route).2.lanes lane_id =
          some lane2 → m.next_vehicle_id ∈ lane2.vehicles) ∧
      (Model.add_vehicle m lane_id dtp pos route).2.next_vehicle_id =
        m.next_vehicle_id + 1 ∧
      (Model.add_vehicle m lane_id dtp pos route).2.next_driver_id =
        m.next_driver_id + 1 ∧
      (Model.add_vehicle m lane_id dtp pos route).2.stats.total_vehicles =
        m.stats.total_vehicles + 1 ∧
      (Model.add_vehicle m lane_id dtp pos route).2.stats.active_vehicles =
        m.stats.active_vehicles + 1) := by
  constructor
  · intro h
    unfold Model.add_vehicle
    rw [h]
  · intro lane hl
    cases route with
    | none =>
      unfold Model.add_vehicle
      rw [hl]
      dsimp only
      simp only [mkVehicle_id, mkVehicle_laneId, get_id_set_vehicle, get_id_create_driver]
      refine ⟨by trivial, ?_, ?_, ?_, ?_, ?_, ?_, ?_⟩
      · rcases getVeh_laneAdd_fields
          { m with
            vehicles := assocSet m.vehicles m.next_vehicle_id
              { mkVehicle m.next_vehicle_id lane_id pos with driverId := some m.next_driver_id }
            drivers := assocSet m.drivers m.next_driver_id
              ((create_driver m.next_driver_id dtp).set_vehicle m.next_vehicle_id) }
          lane_id m.next_vehicle_id
          { mkVehicle m.next_vehicle_id lane_id pos with driverId := some m.next_driver_id }
          (assocGet_assocSet_self _ _ _) with h | h
        · exact ⟨_, h, rfl, rfl⟩
        · exact ⟨_, h, rfl, rfl⟩
      · refine ⟨(create_driver m.next_driver_id dtp).set_vehicle m.next_vehicle_id, ?_,
          vehicleId_set_vehicle _ _⟩
        show assocGet (Lane.add_vehicle _ lane_id _).drivers m.next_driver_id = _
        rw [drivers_laneAdd]
        exact assocGet_assocSet_self _ _ _
      · intro lane2 h2
        unfold Lane.add_vehicle at h2
        dsimp only at h2
        rw [hl] at h2
        dsimp only at h2
        split at h2
        case isTrue hmem =>
          dsimp only at h2
          rw [hl] at h2
          rw [← Option.some.inj h2]
          exact hmem
        case isFalse hmem =>
          split at h2
          case h_1 =>
            try dsimp only [setLane, setVehicle] at h2
            rw [assocGet_assocSet_self] at h2
            rw [← Option.some.inj h2]
            exact (mem_sortByX _ _ _).mpr (List.mem_append_right _ (List.mem_singleton.mpr rfl))
          case h_2 =>
            try dsimp only [setLane, setVehicle] at h2
            rw [assocGet_assocSet_self] at h2
            rw [← Option.some.inj h2]
            exact (mem_sortByX _ _ _).mpr (List.mem_append_right _ (List.mem_singleton.mpr rfl))
      · show (Lane.add_vehicle _ lane_id _).next_vehicle_id + 1 = m.next_vehicle_id + 1
        rw [next_vid_laneAdd]
      · show (Lane.add_vehicle _ lane_id _).next_driver_id + 1 = m.next_driver_id + 1
        rw [next_did_laneAdd]
      · show (Lane.add_vehicle _ lane_id _).stats.total_vehicles + 1 = m.stats.total_vehicles + 1
        rw [stats_laneAdd]
      · show (Lane.add_vehicle _ lane_id _).stats.active_vehicles + 1 = m.stats.active_vehicles + 1
        rw [stats_laneAdd]
    | some r =>
      unfold Model.add_vehicle
      rw [hl]
      dsimp only
      simp only [mkVehicle_id, mkVehicle_laneId, get_id_set_route, get_id_set_vehicle,
        get_id_create_driver]
      refine ⟨by trivial, ?_, ?_, ?_, ?_, ?_, ?_, ?_⟩
      · rcases getVeh_laneAdd_fields
          { m with
            vehicles := assocSet m.vehicles m.next_vehicle_id
              { mkVehicle m.next_vehicle_id lane_id pos with driverId := some m.next_driver_id }
            drivers := assocSet m.drivers m.next_driver_id
              (((create_driver m.next_driver_id dtp).set_vehicle m.next_vehicle_id).set_route r) }
          lane_id m.next_vehicle_id
          { mkVehicle m.next_vehicle_id lane_id pos with driverId := some m.next_driver_id }
          (assocGet_assocSet_self _ _ _) with h | h
        · exact ⟨_, h, rfl, rfl⟩
        · exact ⟨_, h, rfl, rfl⟩
      · refine ⟨((create_driver m.next_driver_id dtp).set_vehicle m.next_vehicle_id).set_route r,
          ?_, ?_⟩
        · show assocGet (Lane.add_vehicle _ lane_id _).drivers m.next_driver_id = _
          rw [drivers_laneAdd]
          exact assocGet_assocSet_self _ _ _
        · rw [vehicleId_set_route]
          exact vehicleId_set_vehicle _ _
      · intro lane2 h2
        unfold Lane.add_vehicle at h2
        dsimp only at h2
        rw [hl] at h2
        dsimp only at h2
        split at h2
        case isTrue hmem =>
          dsimp only at h2
          rw [hl] at h2
          rw [← Option.some.inj h2]
          exact hmem
        case isFalse hmem =>
          split at h2
          case h_1 =>
            try dsimp only [setLane, setVehicle] at h2
            rw [assocGet_assocSet_self] at h2
            rw [← Option.some.inj h2]
            exact (mem_sortByX _ _ _).mpr (List.mem_append_right _ (List.mem_singleton.mpr rfl))
          case h_2 =>
            try dsimp only [setLane, setVehicle] at h2
            rw [assocGet_assocSet_self] at h2
            rw [← Option.some.inj h2]
            exact (mem_sortByX _ _ _).mpr (List.mem_append_right _ (List.mem_singleton.mpr rfl))
      · show (Lane.add_vehicle _ lane_id _).next_vehicle_id + 1 = m.next_vehicle_id + 1
        rw [next_vid_laneAdd]
      · show (Lane.add_vehicle _ lane_id _).next_driver_id + 1 = m.next_driver_id + 1
        rw [next_did_laneAdd]
      · show (Lane.add_vehicle _ lane_id _).stats.total_vehicles + 1 = m.stats.total_vehicles + 1
        rw [stats_laneAdd]
      · show (Lane.add_vehicle _ lane_id _).stats.active_vehicles + 1 = m.stats.active_vehicles + 1
        rw [stats_laneAdd]


/-- C8 witness: `c8_add_vehicle` instantiated on the concrete model mC8w,
both at the unknown lane id 3 and at the registered lane id 7. -/
theorem c8_add_vehicle_witness :
    Model.add_vehicle mC8w 3 DriverType.IDM 0 none = (none, mC8w) ∧
    (Model.add_vehicle mC8w 7 DriverType.IDM 0 none).1 = some mC8w.next_vehicle_id ∧
    (Model.add_vehicle mC8w 7 DriverType.IDM 0 none).2.next_vehicle_id =
      mC8w.next_vehicle_id + 1 := by
  refine ⟨(c8_add_vehicle mC8w 3 DriverType.IDM 0 none).1 (by decide), ?_, ?_⟩
  · exact ((c8_add_vehicle mC8w 7 DriverType.IDM 0 none).2
      { id := 7, length := 500 } (by decide)).1
  · exact ((c8_add_vehicle mC8w 7 DriverType.IDM 0 none).2
      { id := 7, length := 500 } (by decide)).2.2.2.2.1

/-- Equal kinematic views give equal xOf readings. -/
theorem xOf_eq_of_kinView (m2 m : Model) (w : Nat)
    (h : (assocGet m2.vehicles w).map kinView = (assocGet m.vehicles w).map kinView) :
    xOf m2 w = xOf m w := by
  unfold xOf
  cases hg : assocGet m2.vehicles w with
  | none =>
    rw [hg] at h
    cases hg2 : assocGet m.vehicles w with
    | none => rfl
    | some v => rw [hg2] at h; simp at h
  | some v =>
    rw [hg] at h
    cases hg2 : assocGet m.vehicles w with
    | none => rw [hg2] at h; simp at h
    | some v2 =>
      rw [hg2] at h
      simp only [Option.map_some', Option.some.injEq] at h
      show v.state.x = v2.state.x
      exact congrArg (fun t => t.1) h

/-- Lane.add_vehicle never changes any vehicle position. -/
theorem xOf_laneAdd (m : Model) (lid vid w : Nat) :
    xOf (Lane.add_vehicle m lid vid) w = xOf m w :=
  xOf_eq_of_kinView _ m w (kinView_getVeh_laneAdd m lid vid w)

/-- On a fresh insertion, the stored lane record is the old one with the
re-sorted vehicle list. -/
theorem lanes_laneAdd_self (m : Model) (lid vid : Nat) (lane : Lane)
    (hl : assocGet m.lanes lid = some lane) (hmem : vid ∉ lane.vehicles) :
    assocGet (Lane.add_vehicle m lid vid).lanes lid =
      some { lane with vehicles := sortByX m (lane.vehicles ++ [vid]) } := by
  unfold Lane.add_vehicle
  rw [hl]
  dsimp only
  rw [if_neg hmem]
  try dsimp only
  split
  · exact assocGet_assocSet_self _ _ _
  · exact assocGet_assocSet_self _ _ _

/-- C2 counterexample: from mC2 one simulation tick leaves lane 1's list
as [1, 2] while vehicle 1 has overtaken vehicle 2, so the list is no
longer sorted by ascending position after the tick. -/
theorem c2_counterexample :
    (assocGet mC2after.lanes 1).map (fun l => l.vehicles) = some [1, 2] ∧
    ¬ [1, 2].Pairwise (fun a b => xOf mC2after a ≤ xOf mC2after b) := by
  constructor
  · decide
  · decide

/-- C2 (corrected): after Lane.add_vehicle inserts a vehicle that was not
yet on a registered lane, that lane's vehicle list is sorted by ascending
longitudinal position; the across-a-tick half of the claim is refuted by
the counterexample, since the tick never re-sorts the lists. -/
theorem c2_sorted_after_insertion (m : Model) (lid vid : Nat) (lane : Lane)
    (hl : assocGet m.lanes lid = some lane) (hmem : vid ∉ lane.vehicles) :
    ∃ lane2, assocGet (Lane.add_vehicle m lid vid).lanes lid = some lane2 ∧
      lane2.vehicles.Pairwise
        (fun a b => xOf (Lane.add_vehicle m lid vid) a ≤ xOf (Lane.add_vehicle m lid vid) b) := by
  refine ⟨_, lanes_laneAdd_self m lid vid lane hl hmem, ?_⟩
  refine (pairwise_sortByX m (lane.vehicles ++ [vid])).imp ?_
  intro a b hab
  simp only [xOf_laneAdd]
  exact hab

/-- C2 witness: inserting fresh vehicle 3 into lane 1 of mC2 through
`c2_sorted_after_insertion`. -/
theorem c2_sorted_after_insertion_witness :
    (3 : Nat) ∉ ({ id := 1, length := 10000, vehicles := [1, 2] } : Lane).vehicles ∧
    ∃ lane2, assocGet (Lane.add_vehicle mC2 1 3).lanes 1 = some lane2 ∧
      lane2.vehicles.Pairwise
        (fun a b => xOf (Lane.add_vehicle mC2 1 3) a ≤ xOf (Lane.add_vehicle mC2 1 3) b) :=
  ⟨by decide,
   c2_sorted_after_insertion mC2 1 3 { id := 1, length := 10000, vehicles := [1, 2] }
     (by decide) (by decide)⟩

/-- endLCReset is one registry write of the reset vehicle record. -/
theorem endLCReset_spec (m : Model) (vid : Nat) (veh : Vehicle)
    (hveh : assocGet m.vehicles vid = some veh) :
    endLCReset m vid = setVehicle m vid
      { veh with
        state := { veh.state with lane_change_progress := 0 }
        lc_direction := none
        dy := 0 } := by
  unfold endLCReset
  rw [hveh]

/-- endLCSwitch moves the vehicle id from the old lane list to the
target lane list and rewrites the vehicle.lane reference, leaving the
rest of the vehicle record alone. -/
theorem endLCSwitch_spec (m : Model) (oldLid tid vid : Nat) (veh : Vehicle)
    (lane laneT : Lane)
    (hveh : assocGet m.vehicles vid = some veh)
    (hold : assocGet m.lanes oldLid = some lane)
    (hmemO : vid ∈ lane.vehicles)
    (hne : tid ≠ oldLid)
    (hnew : assocGet m.lanes tid = some laneT)
    (hnotnew : vid ∉ laneT.vehicles) :
    (∃ veh2, assocGet (endLCSwitch m oldLid tid vid).vehicles vid = some veh2 ∧
      veh2.laneId = tid ∧ veh2.state = veh.state ∧
      veh2.lc_direction = veh.lc_direction ∧ veh2.dy = veh.dy) ∧
    assocGet (endLCSwitch m oldLid tid vid).lanes oldLid =
      some { lane with vehicles := lane.vehicles.erase vid } ∧
    (∃ laneN, assocGet (endLCSwitch m oldLid tid vid).lanes tid = some laneN ∧
      laneN.vehicles.count vid = laneT.vehicles.count vid + 1) := by
  unfold endLCSwitch Lane.remove_vehicle
  rw [hold]
  dsimp only
  rw [if_pos hmemO]
  have hg2 : assocGet (setLane m oldLid
      { lane with vehicles := lane.vehicles.erase vid }).vehicles vid = some veh := hveh
  rw [hg2]
  dsimp only
  unfold Lane.add_vehicle
  have hlanes3 : assocGet (setVehicle
      (setLane m oldLid { lane with vehicles := lane.vehicles.erase vid })
      vid { veh with laneId := tid }).lanes tid = some laneT := by
    show assocGet (assocSet m.lanes oldLid _) tid = some laneT
    rw [assocGet_assocSet_ne m.lanes oldLid tid _ hne]
    exact hnew
  rw [hlanes3]
  try dsimp only
  rw [if_neg hnotnew]
  try dsimp only
  split
  case h_1 hnone =>
    exact absurd ((assocGet_assocSet_self _ _ _).symm.trans hnone) (by simp)
  case h_2 veh4 hget4 =>
    have h4 : veh4 = { veh with laneId := tid } :=
      (Option.some.inj ((assocGet_assocSet_self _ _ _).symm.trans hget4)).symm
  -- wait direction: self : get = some vehT; hget4 : get = some veh4
    subst h4
    refine ⟨⟨{ veh with laneId := tid }, assocGet_assocSet_self _ _ _,
      rfl, rfl, rfl, rfl⟩, ?_, ⟨_, assocGet_assocSet_self _ _ _, ?_⟩⟩
    · show assocGet (assocSet (assocSet m.lanes oldLid
        { lane with vehicles := lane.vehicles.erase vid }) tid _) oldLid = _
      rw [assocGet_assocSet_ne _ tid oldLid _ (Ne.symm hne)]
      exact assocGet_assocSet_self _ _ _
    · show (sortByX _ (laneT.vehicles ++ [vid])).count vid = laneT.vehicles.count vid + 1
      rw [count_sortByX, List.count_append]
      simp

/-- C3 counterexample: starting from mC3 the change begins while lane 1's
left neighbor is lane 2; the neighbor is then relinked to lane 3 before
the move that completes the change, and the vehicle ends on lane 3, not
on lane 2, the neighbor at the moment the change started. -/
theorem c3_counterexample :
    (assocGet mC3.lanes 1).map (fun l => l.left) = some (some 2) ∧
    (assocGet mC3after.vehicles 1).map (fun v => v.laneId) = some 3 ∧
    (assocGet mC3after.lanes 3).map (fun l => l.vehicles) = some [1] ∧
    (assocGet mC3after.lanes 2).map (fun l => l.vehicles) = some [] ∧
    (3 : Nat) ≠ 2 := by
  refine ⟨by decide, by decide, by decide, by decide, by decide⟩

/-- C3 (corrected): when move(dt) brings the lane change progress to 1
or beyond, the vehicle is removed from its old lane's list and added to
the target lane's list exactly once, its lane reference is reassigned,
the progress resets to 0 and the direction clears -- but the target lane
is the left or right neighbor of the vehicle's lane at the moment the
change completes, not at the moment it started (see the counterexample). -/
theorem c3_lane_change_completion (m : Model) (vid : Nat) (veh : Vehicle) (dt : ℚ)
    (dir : LatDirection) (lane laneT : Lane) (tid : Nat)
    (hveh : assocGet m.vehicles vid = some veh)
    (hcrash : veh.state.crashed = false)
    (hdy : veh.dy ≠ 0)
    (hp : 1 ≤ veh.state.lane_change_progress + veh.dy * dt)
    (hdir : veh.lc_direction = some dir)
    (hlane : assocGet m.lanes veh.laneId = some lane)
    (htid : (match dir with
             | LatDirection.LEFT => lane.left
             | LatDirection.RIGHT => lane.right) = some tid)
    (hne : tid ≠ veh.laneId)
    (hnew : assocGet m.lanes tid = some laneT)
    (hcount : lane.vehicles.count vid = 1)
    (hnotnew : vid ∉ laneT.vehicles) :
    (∃ veh2, assocGet (Vehicle.move m vid dt).vehicles vid = some veh2 ∧
      veh2.laneId = tid ∧ veh2.state.lane_change_progress = 0 ∧
      veh2.lc_direction = none ∧ veh2.dy = 0) ∧
    (∃ laneO, assocGet (Vehicle.move m vid dt).lanes veh.laneId = some laneO ∧
      laneO.vehicles.count vid = 0) ∧
    (∃ laneN, assocGet (Vehicle.move m vid dt).lanes tid = some laneN ∧
      laneN.vehicles.count vid = 1) := by
  have hp0 : (0:ℚ) < veh.state.lane_change_progress + veh.dy * dt :=
    lt_of_lt_of_le zero_lt_one hp
  have hmemO : vid ∈ lane.vehicles := by
    by_contra hno
    rw [List.count_eq_zero.mpr hno] at hcount
    exact absurd hcount (by decide)
  have hcount0 : laneT.vehicles.count vid = 0 := List.count_eq_zero.mpr hnotnew
  have hmove : Vehicle.move m vid dt =
      moveIntegrate (endLCReset (endLCSwitch (setVehicle m vid
        { veh with state := { veh.state with lane_change_progress :=
            veh.state.lane_change_progress + veh.dy * dt } }) veh.laneId tid vid) vid)
        vid dt := by
    unfold Vehicle.move
    rw [hveh]
    dsimp only
    rw [hcrash]
    rw [if_neg Bool.false_ne_true, if_pos hdy]
    unfold moveLateral
    dsimp only
    rw [if_pos hp]
    unfold Vehicle.end_lane_change
    have hg0 : assocGet (setVehicle m vid
        { veh with state := { veh.state with lane_change_progress :=
            veh.state.lane_change_progress + veh.dy * dt } }).vehicles vid =
        some { veh with state := { veh.state with lane_change_progress :=
            veh.state.lane_change_progress + veh.dy * dt } } :=
      assocGet_assocSet_self _ _ _
    rw [hg0]
    dsimp only
    rw [if_pos hp0]
    rw [hdir]
    cases dir with
    | LEFT =>
      have htid2 : lane.left = some tid := htid
      try dsimp only
      rw [lanes_setVehicle, hlane, Option.some_bind]
      try dsimp only
      rw [htid2]
      try dsimp only
      rw [← hdir]
      rw [hcrash]
    | RIGHT =>
      have htid2 : lane.right = some tid := htid
      try dsimp only
      rw [lanes_setVehicle, hlane, Option.some_bind]
      try dsimp only
      rw [htid2]
      try dsimp only
      rw [← hdir]
      rw [hcrash]
  rw [hmove]
  have hveh0 : assocGet (setVehicle m vid
      { veh with state := { veh.state with lane_change_progress :=
          veh.state.lane_change_progress + veh.dy * dt } }).vehicles vid =
      some { veh with state := { veh.state with lane_change_progress :=
          veh.state.lane_change_progress + veh.dy * dt } } :=
    assocGet_assocSet_self _ _ _
  rcases endLCSwitch_spec (setVehicle m vid
      { veh with state := { veh.state with lane_change_progress :=
          veh.state.lane_change_progress + veh.dy * dt } }) veh.laneId tid vid
      { veh with state := { veh.state with lane_change_progress :=
          veh.state.lane_change_progress + veh.dy * dt } } lane laneT
      hveh0 hlane hmemO hne hnew hnotnew with
    ⟨⟨veh2, hg2, hlid2, hst2, hdir2, hdy2⟩, holdL, laneN, hgN, hcntN⟩
  rw [endLCReset_spec _ vid veh2 hg2]
  have hgR : assocGet (setVehicle (endLCSwitch (setVehicle m vid
      { veh with state := { veh.state with lane_change_progress :=
          veh.state.lane_change_progress + veh.dy * dt } }) veh.laneId tid vid) vid
      { veh2 with
        state := { veh2.state with lane_change_progress := 0 }
        lc_direction := none
        dy := 0 }).vehicles vid =
      some { veh2 with
        state := { veh2.state with lane_change_progress := 0 }
        lc_direction := none
        dy := 0 } := assocGet_assocSet_self _ _ _
  rcases moveIntegrate_spec _ vid dt _ hgR with
    ⟨veh3, hg3, hv3, hx3, hc3, ha3, hprog3, hlid3, hdir3, hdy3⟩
  refine ⟨⟨veh3, hg3, ?_, ?_, ?_, ?_⟩,
    ⟨{ lane with vehicles := lane.vehicles.erase vid }, ?_, ?_⟩, ⟨laneN, ?_, ?_⟩⟩
  · exact (hlid3.trans (rfl : ({ veh2 with
        state := { veh2.state with lane_change_progress := 0 }
        lc_direction := none
        dy := 0 } : Vehicle).laneId = veh2.laneId)).trans hlid2
  · exact hprog3.trans rfl
  · exact hdir3.trans rfl
  · exact hdy3.trans rfl
  · rw [lanes_moveIntegrate]
    exact holdL
  · show (lane.vehicles.erase vid).count vid = 0
    rw [List.count_erase_self, hcount]
  · rw [lanes_moveIntegrate]
    exact hgN
  · rw [hcntN, hcount0]

/-- C3 witness: `c3_lane_change_completion` instantiated on mC3w, where
vehicle 1 at progress 9/10 and lateral rate 1/3 completes its LEFT
change into lane 2 during a 1 s move. -/
theorem c3_lane_change_completion_witness :
    (∃ veh2, assocGet (Vehicle.move mC3w 1 1).vehicles 1 = some veh2 ∧
      veh2.laneId = 2 ∧ veh2.state.lane_change_progress = 0 ∧
      veh2.lc_direction = none ∧ veh2.dy = 0) ∧
    (∃ laneO, assocGet (Vehicle.move mC3w 1 1).lanes 1 = some laneO ∧
      laneO.vehicles.count 1 = 0) ∧
    (∃ laneN, assocGet (Vehicle.move mC3w 1 1).lanes 2 = some laneN ∧
      laneN.vehicles.count 1 = 1) :=
  c3_lane_change_completion mC3w 1
    { mkVehicle 1 1 100 with
      state := { x := 100, velocity := 10, lane_change_progress := 9/10 }
      lc_direction := some LatDirection.LEFT
      dy := 1/3 } 1 LatDirection.LEFT
    { id := 1, length := 1000, vehicles := [1], left := some 2 }
    { id := 2, length := 1000, right := some 1 } 2
    (by decide) (by decide) (by decide) (by decide) (by decide) (by decide)
    (by decide) (by decide) (by decide) (by decide) (by decide)

/-- foldl_preserve restricted to steps drawn from the folded list. -/
theorem foldl_preserve_mem {α : Type} (P : Model → Prop) (f : Model → α → Model)
    (l : List α) (m : Model) (h0 : P m)
    (hstep : ∀ m1 a, a ∈ l → P m1 → P (f m1 a)) : P (l.foldl f m) := by
  induction l generalizing m with
  | nil => exact h0
  | cons a as ih =>
    exact ih (f m a) (hstep m a (List.mem_cons_self a as) h0)
      (fun m1 b hb hp => hstep m1 b (List.mem_cons_of_mem a hb) hp)

/-- Equal laneShapes registries give equal laneShape-projected lookups. -/
theorem getLane_shape (m1 m2 : Model) (lid : Nat)
    (h : laneShapes m1 = laneShapes m2) :
    (assocGet m1.lanes lid).map laneShape = (assocGet m2.lanes lid).map laneShape := by
  rw [← assocGet_map_snd laneShape m1.lanes lid, ← assocGet_map_snd laneShape m2.lanes lid]
  unfold laneShapes at h
  rw [h]

/-- move on a present vehicle with no lateral speed: pure integration,
reaching postMoveX and leaving the lane assignment, the crash flag, the
lanes registry and the statistics alone. -/
theorem move_self_dy0 (m : Model) (vid : Nat) (dt : ℚ) (veh : Vehicle)
    (hveh : assocGet m.vehicles vid = some veh) (hdy : veh.dy = 0) :
    ∃ vehM, assocGet (Vehicle.move m vid dt).vehicles vid = some vehM ∧
      vehM.state.x = postMoveX veh dt ∧ vehM.laneId = veh.laneId ∧
      vehM.state.crashed = veh.state.crashed ∧
      (Vehicle.move m vid dt).lanes = m.lanes := by
  unfold Vehicle.move
  rw [hveh]
  dsimp only
  by_cases hc : veh.state.crashed = true
  · rw [if_pos hc]
    refine ⟨veh, hveh, ?_, rfl, rfl, rfl⟩
    unfold postMoveX
    rw [if_pos hc]
  · rw [if_neg hc]
    rw [if_neg (not_ne_iff.mpr hdy)]
    rcases moveIntegrate_spec m vid dt veh hveh with
      ⟨vehM, hg, hv, hx, hcr, _, _, hlid, _, _⟩
    refine ⟨vehM, hg, ?_, hlid, hcr, lanes_moveIntegrate m vid dt⟩
    rw [hx]
    unfold postMoveX
    rw [if_neg hc]

/-- moveAndCheck on a present vehicle with no lateral speed whose lane
has no downstream: the vehicle is deleted from the registry exactly when
the integrated position exceeds the lane length. -/
theorem moveAndCheck_self_spec (m : Model) (dt : ℚ) (vid : Nat) (veh : Vehicle)
    (lane : Lane)
    (hkeys : (m.vehicles.map Prod.fst).Nodup)
    (hveh : assocGet m.vehicles vid = some veh)
    (hdy : veh.dy = 0)
    (hlane : assocGet m.lanes veh.laneId = some lane)
    (hdown : lane.downstream = none) :
    (lane.length < postMoveX veh dt →
      assocGet (moveAndCheck m dt vid).vehicles vid = none) ∧
    (¬ lane.length < postMoveX veh dt →
      ∃ vehM, assocGet (moveAndCheck m dt vid).vehicles vid = some vehM) := by
  rcases move_self_dy0 m vid dt veh hveh hdy with ⟨vehM, hgM, hxM, hlidM, _, hlanesM⟩
  have hexit : Model.has_vehicle_exited (Vehicle.move m vid dt) vehM =
      decide (lane.length < postMoveX veh dt) := by
    unfold Model.has_vehicle_exited
    rw [hlanesM, hlidM, hlane]
    dsimp only
    rw [hxM, hdown]
    simp
  unfold moveAndCheck
  dsimp only
  rw [hgM]
  dsimp only
  rw [hexit]
  constructor
  · intro hlt
    rw [if_pos (decide_eq_true hlt)]
    exact getVeh_removeVehicle_self _ _ (by rw [keys_move]; exact hkeys)
  · intro hlt
    rw [if_neg (fun h => hlt (of_decide_eq_true h))]
    exact ⟨vehM, hgM⟩

/-- Option.map inversion for an arbitrary projection. -/
theorem option_map_eq_some {α β : Type} (f : α → β) (o : Option α) (b : β)
    (h : o.map f = some b) : ∃ v, o = some v ∧ f v = b := by
  cases o with
  | none => simp at h
  | some v => exact ⟨v, rfl, by simpa using h⟩

/-- Core of the C4 argument over the three tick phases: the acceleration
a that the drive phase writes into the vehicle record makes deletion from
the vehicle registry equivalent to the integrated position passing the
lane length. -/
theorem c4_core (msqrt : ℚ → ℚ) (mY : Model) (dt : ℚ) (vid : Nat) (veh : Vehicle)
    (lane : Lane)
    (hkeys : (mY.vehicles.map Prod.fst).Nodup)
    (hids : idsOK mY)
    (hveh : assocGet mY.vehicles vid = some veh)
    (hdy : veh.dy = 0)
    (hlane : assocGet mY.lanes veh.laneId = some lane)
    (hdown : lane.downstream = none)
    (hleft : lane.left = none) (hright : lane.right = none) :
    ∃ a : ℚ,
      (assocGet (phaseDrive msqrt (phaseSurroundings mY)).vehicles vid).map
          (fun v => v.state.acceleration) = some a ∧
      (assocGet (Model.update_statistics (phaseMove (phaseDrive msqrt
          (phaseSurroundings mY)) dt)).vehicles vid = none ↔
        lane.length < postMoveX
          { veh with state := { veh.state with acceleration := a } } dt) := by
  obtain ⟨hsl, hsd, hsa, hss, hsk, hsi, hsv⟩ := phaseSurr_inv mY
  obtain ⟨vehS, hgS, hnsv⟩ := option_map_eq_some noSurrView _ _
    ((hsv vid).trans (by rw [hveh]; rfl))
  simp only [noSurrView, Prod.mk.injEq] at hnsv
  obtain ⟨hSid, hSlid, hSst, hSlen, hSw, hSvm, hSdir, hSdy, hSdrv⟩ := hnsv
  have hidsS : idsOK (phaseSurroundings mY) := hsi hids
  have hprotS : ∀ veh1, assocGet (phaseSurroundings mY).vehicles vid = some veh1 →
      ∃ lane1, assocGet (phaseSurroundings mY).lanes veh1.laneId = some lane1 ∧
        lane1.left = none ∧ lane1.right = none := by
    intro veh1 hg1
    have hv1 : veh1 = vehS := Option.some.inj (hg1.symm.trans hgS)
    subst hv1
    refine ⟨lane, ?_, hleft, hright⟩
    rw [hsl, hSlid]
    exact hlane
  obtain ⟨hdl, hdd, hda, hdk, hdi, hdv⟩ :=
    phaseDrive_inv msqrt (phaseSurroundings mY) vid hidsS hprotS
  obtain ⟨vehD, hgD, hbv⟩ := option_map_eq_some behView _ _
    (hdv.trans (by rw [hgS]; rfl))
  simp only [behView, Prod.mk.injEq] at hbv
  obtain ⟨hDid, hDlid, hDx, hDy2, hDvel, hDprog, hDcr, hDdir, hDdy, hDlen, hDw,
    hDvm, hDdrv⟩ := hbv
  have hx : vehD.state.x = veh.state.x :=
    hDx.trans (congrArg (fun s => s.x) hSst)
  have hvel : vehD.state.velocity = veh.state.velocity :=
    hDvel.trans (congrArg (fun s => s.velocity) hSst)
  have hcr : vehD.state.crashed = veh.state.crashed :=
    hDcr.trans (congrArg (fun s => s.crashed) hSst)
  have hlidD : vehD.laneId = veh.laneId := hDlid.trans hSlid
  have hdyD : vehD.dy = 0 := (hDdy.trans hSdy).trans hdy
  have hpost : postMoveX vehD dt = postMoveX
      { veh with state := { veh.state with acceleration := vehD.state.acceleration } }
      dt := by
    unfold postMoveX
    dsimp only
    rw [hcr, hx, hvel]
  refine ⟨vehD.state.acceleration, by rw [hgD]; rfl, ?_⟩
  rw [← hpost]
  rw [vehicles_updateStats]
  have hkeysD : (phaseDrive msqrt (phaseSurroundings mY)).vehicles.map Prod.fst =
      mY.vehicles.map Prod.fst := hdk.trans hsk
  have hnodD : ((phaseDrive msqrt (phaseSurroundings mY)).vehicles.map Prod.fst).Nodup :=
    by rw [hkeysD]; exact hkeys
  have hmem : vid ∈ (phaseDrive msqrt (phaseSurroundings mY)).vehicles.map Prod.fst :=
    List.mem_map.mpr ⟨(vid, vehD), assocGet_mem _ _ _ hgD, rfl⟩
  obtain ⟨l1, l2, hsplit⟩ := List.append_of_mem hmem
  have hnod2 : (l1 ++ vid :: l2).Nodup := hsplit ▸ hnodD
  have hvidl1 : vid ∉ l1 := by
    rcases List.nodup_append.mp hnod2 with ⟨-, -, hdisj⟩
    exact fun h => hdisj h (List.mem_cons_self _ _)
  have hvidl2 : vid ∉ l2 := by
    rcases List.nodup_append.mp hnod2 with ⟨-, h2, -⟩
    exact (List.nodup_cons.mp h2).1
  unfold phaseMove
  rw [hsplit, List.foldl_append]
  obtain ⟨hg1, hls1, hnod1⟩ := foldl_preserve_mem
    (fun m1 => assocGet m1.vehicles vid = some vehD ∧
      laneShapes m1 = laneShapes (phaseDrive msqrt (phaseSurroundings mY)) ∧
      (m1.vehicles.map Prod.fst).Nodup)
    (fun m1 k => moveAndCheck m1 dt k) l1 (phaseDrive msqrt (phaseSurroundings mY))
    ⟨hgD, rfl, hnodD⟩
    (fun m1 k hk hp =>
      ⟨(getVeh_moveAndCheck_other m1 dt k vid
          (fun he => hvidl1 (by rw [he]; exact hk))).trans hp.1,
       (laneShapes_moveAndCheck m1 dt k).trans hp.2.1,
       keysNodup_moveAndCheck m1 dt k hp.2.2⟩)
  have hshape : (assocGet (l1.foldl (fun m1 k => moveAndCheck m1 dt k)
      (phaseDrive msqrt (phaseSurroundings mY))).lanes veh.laneId).map laneShape =
      some (laneShape lane) := by
    rw [getLane_shape _ (phaseDrive msqrt (phaseSurroundings mY)) veh.laneId hls1]
    rw [hdl, hsl, hlane]
    rfl
  obtain ⟨laneL, hgLL, hshL⟩ := option_map_eq_some laneShape _ _ hshape
  simp only [laneShape, Prod.mk.injEq] at hshL
  obtain ⟨hLid, hLlen, hLup, hLdown, hLleft, hLright, hLsl2, hLw⟩ := hshL
  have hlaneL2 : assocGet (l1.foldl (fun m1 k => moveAndCheck m1 dt k)
      (phaseDrive msqrt (phaseSurroundings mY))).lanes vehD.laneId = some laneL := by
    rw [hlidD]
    exact hgLL
  obtain ⟨hrem, hstay⟩ := moveAndCheck_self_spec _ dt vid vehD laneL hnod1 hg1 hdyD
    hlaneL2 (hLdown.trans hdown)
  rw [List.foldl_cons]
  by_cases hlt : lane.length < postMoveX vehD dt
  · have h0 : assocGet (moveAndCheck (l1.foldl (fun m1 k => moveAndCheck m1 dt k)
        (phaseDrive msqrt (phaseSurroundings mY))) dt vid).vehicles vid = none :=
      hrem (by rw [hLlen]; exact hlt)
    have hfin := foldl_preserve_mem
      (fun m1 => assocGet m1.vehicles vid = none)
      (fun m1 k => moveAndCheck m1 dt k) l2 _ h0
      (fun m1 k hk hp =>
        (getVeh_moveAndCheck_other m1 dt k vid
          (fun he => hvidl2 (by rw [he]; exact hk))).trans hp)
    exact iff_of_true hfin hlt
  · obtain ⟨vehM, hsome⟩ := hstay (by rw [hLlen]; exact hlt)
    have hfin := foldl_preserve_mem
      (fun m1 => assocGet m1.vehicles vid = some vehM)
      (fun m1 k => moveAndCheck m1 dt k) l2 _ hsome
      (fun m1 k hk hp =>
        (getVeh_moveAndCheck_other m1 dt k vid
          (fun he => hvidl2 (by rw [he]; exact hk))).trans hp)
    exact iff_of_false (by rw [hfin]; simp) hlt

/-- C4: for a vehicle with no lateral motion whose lane has no adjacent
and no downstream lanes, one tick of the pipeline deletes it from the
vehicle registry exactly when the position integrated with the
acceleration a that the drive phase actually wrote into the record (the
first conjunct pins a to that value) exceeds the lane length -- so on a
tick where the integrated position stays within the lane the vehicle is
not removed; and the removal step always decrements the active count and
classifies the vehicle completed unless it is crashed. -/
theorem c4_exit_on_first_tick (msqrt : ℚ → ℚ) (m : Model) (dt : ℚ) (vid : Nat)
    (veh : Vehicle) (lane : Lane)
    (hkeys : (m.vehicles.map Prod.fst).Nodup)
    (hids : idsOK m)
    (hveh : assocGet m.vehicles vid = some veh)
    (hdy : veh.dy = 0)
    (hlane : assocGet m.lanes veh.laneId = some lane)
    (hdown : lane.downstream = none)
    (hleft : lane.left = none) (hright : lane.right = none) :
    (∃ a : ℚ,
      (assocGet (phaseDrive msqrt (phaseSurroundings
          { m with
            current_time := m.current_time + dt
            stats := { m.stats with
              current_time := m.current_time + dt } })).vehicles vid).map
          (fun v => v.state.acceleration) = some a ∧
      (assocGet (Model.update_simulation msqrt m dt).vehicles vid = none ↔
        lane.length < postMoveX
          { veh with state := { veh.state with acceleration := a } } dt)) ∧
    (∀ (m2 : Model) (vid2 : Nat) (veh2 : Vehicle),
      assocGet m2.vehicles vid2 = some veh2 →
      (Model.remove_vehicle m2 vid2).stats.active_vehicles =
        m2.stats.active_vehicles - 1 ∧
      (Model.remove_vehicle m2 vid2).stats.completed_vehicles =
        m2.stats.completed_vehicles + (if veh2.state.crashed then 0 else 1) ∧
      (Model.remove_vehicle m2 vid2).stats.crashed_vehicles =
        m2.stats.crashed_vehicles + (if veh2.state.crashed then 1 else 0)) := by
  constructor
  · unfold Model.update_simulation
    dsimp only
    exact c4_core msqrt _ dt vid veh lane hkeys hids hveh hdy hlane hdown hleft hright
  · intro m2 vid2 veh2 hg2
    obtain ⟨h1, h2, h3⟩ := stats_removeVehicle m2 vid2 veh2 hg2
    exact ⟨h1, h3, h2⟩

/-- C4 witness: `c4_exit_on_first_tick` instantiated on mC4w, a vehicle
at x = 20 and velocity 40 on an isolated lane of length 50, with a tick
of 1 s; the drive phase brakes it to about -2.149 and the integrated
position of about 58.9 still passes the lane end, so this tick removes
the vehicle. -/
theorem c4_exit_on_first_tick_witness :
    (∃ a : ℚ,
      (assocGet (phaseDrive msqrtW (phaseSurroundings
          { mC4w with
            current_time := mC4w.current_time + 1
            stats := { mC4w.stats with
              current_time := mC4w.current_time + 1 } })).vehicles 1).map
          (fun v => v.state.acceleration) = some a ∧
      (assocGet (Model.update_simulation msqrtW mC4w 1).vehicles 1 = none ↔
        (50 : ℚ) < postMoveX
          { { mkVehicle 1 1 20 with
              state := { x := 20, velocity := 40 }, driverId := some 1 } with
            state := { ({ mkVehicle 1 1 20 with
              state := { x := 20, velocity := 40 }, driverId := some 1 } : Vehicle).state
              with acceleration := a } } 1)) ∧
    (∀ (m2 : Model) (vid2 : Nat) (veh2 : Vehicle),
      assocGet m2.vehicles vid2 = some veh2 →
      (Model.remove_vehicle m2 vid2).stats.active_vehicles =
        m2.stats.active_vehicles - 1 ∧
      (Model.remove_vehicle m2 vid2).stats.completed_vehicles =
        m2.stats.completed_vehicles + (if veh2.state.crashed then 0 else 1) ∧
      (Model.remove_vehicle m2 vid2).stats.crashed_vehicles =
        m2.stats.crashed_vehicles + (if veh2.state.crashed then 1 else 0)) :=
  c4_exit_on_first_tick msqrtW mC4w 1 1
    { mkVehicle 1 1 20 with state := { x := 20, velocity := 40 }, driverId := some 1 }
    { id := 1, length := 50, vehicles := [1] }
    (by decide) (by unfold idsOK; decide) (by decide) (by decide) (by decide)
    (by decide) (by decide) (by decide)